import Mathlib

/-!
Verification of the rangeguard keeper's Liquidity Range Planner and
Transaction Assembler.  The definitions below are a shallow embedding of the
TypeScript sources: tick alignment and range construction (uniswap/ticks),
boundary liquidity math (uniswap/position), amount selection (amounts),
instruction assembly (uniswap/planner) and the cooldown gate (cooldown).
JavaScript bigint arithmetic is modelled with Int (truncated division written
Int.tdiv), JavaScript number arithmetic on ticks with Int, and the float
expressions tick - width / 2 and tick + width / 2 that feed Math.floor and
Math.ceil are tracked exactly by carrying the doubled integers
2 * tick - width and 2 * tick + width (all magnitudes involved are far below
2 to the 53, so JavaScript float arithmetic on them is exact).
-/

set_option maxRecDepth 20000

deriving instance DecidableEq for Except

namespace RangeGuard

/-- Error values raised by the keeper library.  Each constructor stands for one
distinct KeeperError message thrown in the sources; the cooldown error carries
the remaining wait in seconds, as in the source message. -/
inductive KeeperError where
  | invalidTickSpacing
  | widthNotPositive
  | widthNotMultiple
  | tickOutsideSupportedRange
  | widthExceedsRange
  | invalidTickRange
  | rangeNotAligned
  | invalidTickRangeAfterAlignment
  | boundaryLiquidityRequiresBoundaryMode
  | boundaryMinAmountRequiresBoundaryMode
  | aboveMaxRequiresAmount1
  | belowMinRequiresAmount0
  | invalidSqrtRatioOrdering
  | divisionByZero
  | missingAmountInputs
  | quoterRequired
  | invalidBufferBps
  | derivedZeroCannotScale
  | scaledAmount0FellToZero
  | scaledAmount1FellToZero
  | derivedToken1ExceedsBalance
  | derivedToken0ExceedsBalance
  | noFallbackToken1Balance
  | noFallbackToken0Balance
  | quoteUnavailable
  | amountMinNegative
  | amountMinExceedsUint128
  | amountMaxExceedsUint128
  | cooldownActive (remainingSeconds : Int)
  deriving DecidableEq

/-- Protocol-wide minimum tick, the MIN_TICK constant of uniswap/ticks. -/
def MIN_TICK : Int := -887272

/-- Protocol-wide maximum tick, the MAX_TICK constant of uniswap/ticks. -/
def MAX_TICK : Int := 887272

/-- Math.floor (a / b) for a positive divisor b.  The source divides
JavaScript numbers and floors; on tick magnitudes the float quotient is exact
enough that the composition equals floor division. -/
def mathFloorDiv (a b : Int) : Int := Int.fdiv a b

/-- Math.ceil (a / b) for a positive divisor b. -/
def mathCeilDiv (a b : Int) : Int := -Int.fdiv (-a) b

/-- Smallest spacing-aligned tick not below MIN_TICK:
Math.ceil (MIN_TICK / spacing) * spacing. -/
def minAlignedTick (spacing : Int) : Int := mathCeilDiv MIN_TICK spacing * spacing

/-- Largest spacing-aligned tick not above MAX_TICK:
Math.floor (MAX_TICK / spacing) * spacing. -/
def maxAlignedTick (spacing : Int) : Int := mathFloorDiv MAX_TICK spacing * spacing

/-- Value computed by alignDown once the spacing guard has passed:
Math.floor (tick / spacing) * spacing. -/
def alignDownVal (tick spacing : Int) : Int := mathFloorDiv tick spacing * spacing

/-- Value computed by alignUp once the spacing guard has passed:
Math.ceil (tick / spacing) * spacing. -/
def alignUpVal (tick spacing : Int) : Int := mathCeilDiv tick spacing * spacing

/-- The alignDown helper of uniswap/ticks: throws on non-positive spacing. -/
def alignDown (tick spacing : Int) : Except KeeperError Int :=
  if spacing ≤ 0 then .error .invalidTickSpacing else .ok (alignDownVal tick spacing)

/-- The alignUp helper of uniswap/ticks: throws on non-positive spacing. -/
def alignUp (tick spacing : Int) : Except KeeperError Int :=
  if spacing ≤ 0 then .error .invalidTickSpacing else .ok (alignUpVal tick spacing)

/-- The isAligned helper: tick % spacing === 0. -/
def isAligned (tick spacing : Int) : Bool := tick % spacing == 0

/-- Value of alignDown applied to the half-integer argument num / 2: the
source passes the float tick - widthTicks / 2, which we carry doubled, and
Math.floor ((num / 2) / spacing) equals floor division of num by
2 * spacing. -/
def alignDownHalfVal (num spacing : Int) : Int := mathFloorDiv num (2 * spacing) * spacing

/-- Value of alignUp applied to the half-integer argument num / 2. -/
def alignUpHalfVal (num spacing : Int) : Int := mathCeilDiv num (2 * spacing) * spacing

/-- The alignDown call made by computeBootstrapTicks on the float
tick - widthTicks / 2, carried as the doubled integer num. -/
def alignDownHalf (num spacing : Int) : Except KeeperError Int :=
  if spacing ≤ 0 then .error .invalidTickSpacing else .ok (alignDownHalfVal num spacing)

/-- The alignUp call made by computeBootstrapTicks on the float
tick + widthTicks / 2, carried as the doubled integer num. -/
def alignUpHalf (num spacing : Int) : Except KeeperError Int :=
  if spacing ≤ 0 then .error .invalidTickSpacing else .ok (alignUpHalfVal num spacing)

/-- Result of computeRangeTicks: a plain lower and upper tick pair. -/
structure TickRangePair where
  lower : Int
  upper : Int
  deriving DecidableEq

/-- Mode tag attached to a bootstrap tick range. -/
inductive BootstrapMode where
  | inRange
  | aboveMax
  | belowMin
  deriving DecidableEq

/-- Result record of computeBootstrapTicks. -/
structure BootstrapTicks where
  lower : Int
  upper : Int
  spacing : Int
  mode : BootstrapMode
  maxAligned : Int
  minAligned : Int
  deriving DecidableEq

/-- The computeRangeTicks function of uniswap/ticks (the re-centering variant
with global bound clamping).  Mirrors the source control flow; for spacing 0
the JavaScript original poisons minTick and maxTick with NaN and ends up
throwing the spacing error inside alignDown, while this model may surface one
of the earlier range errors instead; all claims constrain spacing to be
positive, where the two agree. -/
def computeRangeTicks (tick spacing widthTicks : Int) : Except KeeperError TickRangePair :=
  if widthTicks ≤ 0 then .error .widthNotPositive
  else if widthTicks % spacing ≠ 0 then .error .widthNotMultiple
  else
    let minTick := minAlignedTick spacing
    let maxTick := maxAlignedTick spacing
    if tick < minTick ∨ maxTick < tick then .error .tickOutsideSupportedRange
    else if maxTick - minTick < widthTicks then .error .widthExceedsRange
    else
      (alignDown (tick - mathFloorDiv widthTicks 2) spacing).bind fun lower =>
        let pair : TickRangePair :=
          if lower < minTick then ⟨minTick, minTick + widthTicks⟩
          else if maxTick < lower + widthTicks then ⟨maxTick - widthTicks, maxTick⟩
          else ⟨lower, lower + widthTicks⟩
        if pair.upper ≤ pair.lower then .error .invalidTickRange
        else if ¬ (isAligned pair.lower spacing ∧ isAligned pair.upper spacing) then
          .error .rangeNotAligned
        else .ok pair

/-- Mode tag computed by computeBootstrapTicks from the raw tick before any
pinning: AboveMax when the tick exceeds the aligned maximum, BelowMin when it
is below the aligned minimum, InRange otherwise. -/
def bootstrapModeOf (tick minTick maxTick : Int) : BootstrapMode :=
  if maxTick < tick then .aboveMax
  else if tick < minTick then .belowMin
  else .inRange

/-- The computeBootstrapTicks function of uniswap/ticks.  The source computes
the float window tick plus or minus widthTicks / 2, aligns it outward, pins it
to the aligned global bounds, and tags a mode from the raw tick. -/
def computeBootstrapTicks (tick spacing widthTicks : Int) : Except KeeperError BootstrapTicks :=
  if widthTicks ≤ 0 then .error .widthNotPositive
  else if widthTicks % spacing ≠ 0 then .error .widthNotMultiple
  else
    let minTick := minAlignedTick spacing
    let maxTick := maxAlignedTick spacing
    if maxTick - minTick < widthTicks then .error .widthExceedsRange
    else
      (alignDownHalf (2 * tick - widthTicks) spacing).bind fun lower =>
        (alignUpHalf (2 * tick + widthTicks) spacing).bind fun upper =>
          let mode : BootstrapMode := bootstrapModeOf tick minTick maxTick
          let pinned : BootstrapTicks :=
            if maxTick < upper then
              ⟨maxTick - widthTicks, maxTick, spacing,
                if mode = .inRange ∧ maxTick < tick then .aboveMax else mode,
                maxTick, minTick⟩
            else if lower < minTick then
              ⟨minTick, minTick + widthTicks, spacing,
                if mode = .inRange ∧ tick < minTick then .belowMin else mode,
                maxTick, minTick⟩
            else ⟨lower, upper, spacing, mode, maxTick, minTick⟩
          if pinned.upper ≤ pinned.lower then .error .invalidTickRangeAfterAlignment
          else .ok pinned

theorem mathFloorDiv_mul_le (a b : Int) (hb : 0 < b) : mathFloorDiv a b * b ≤ a := by
  unfold mathFloorDiv
  rw [Int.fdiv_eq_ediv _ hb.le]
  exact Int.ediv_mul_le a hb.ne'

theorem lt_mathFloorDiv_add_one_mul (a b : Int) (hb : 0 < b) :
    a < (mathFloorDiv a b + 1) * b := by
  unfold mathFloorDiv
  rw [Int.fdiv_eq_ediv _ hb.le]
  exact Int.lt_ediv_add_one_mul_self a hb

theorem le_mathCeilDiv_mul (a b : Int) (hb : 0 < b) : a ≤ mathCeilDiv a b * b := by
  unfold mathCeilDiv
  have h := mathFloorDiv_mul_le (-a) b hb
  unfold mathFloorDiv at h
  nlinarith [h]

theorem mathCeilDiv_mul_lt (a b : Int) (hb : 0 < b) : mathCeilDiv a b * b < a + b := by
  unfold mathCeilDiv
  have h := lt_mathFloorDiv_add_one_mul (-a) b hb
  unfold mathFloorDiv at h
  nlinarith [h]

theorem two_mul_alignDownHalfVal_le (num s : Int) (hs : 0 < s) :
    2 * alignDownHalfVal num s ≤ num := by
  have h := mathFloorDiv_mul_le num (2 * s) (by omega)
  unfold alignDownHalfVal
  nlinarith [h]

theorem lt_two_mul_alignDownHalfVal (num s : Int) (hs : 0 < s) :
    num - 2 * s < 2 * alignDownHalfVal num s := by
  have h := lt_mathFloorDiv_add_one_mul num (2 * s) (by omega)
  unfold alignDownHalfVal
  nlinarith [h]

theorem le_two_mul_alignUpHalfVal (num s : Int) (hs : 0 < s) :
    num ≤ 2 * alignUpHalfVal num s := by
  have h := le_mathCeilDiv_mul num (2 * s) (by omega)
  unfold alignUpHalfVal
  nlinarith [h]

theorem two_mul_alignUpHalfVal_lt (num s : Int) (hs : 0 < s) :
    2 * alignUpHalfVal num s < num + 2 * s := by
  have h := mathCeilDiv_mul_lt num (2 * s) (by omega)
  unfold alignUpHalfVal
  nlinarith [h]

theorem dvd_alignDownHalfVal (num s : Int) : s ∣ alignDownHalfVal num s :=
  dvd_mul_left s _

theorem dvd_alignUpHalfVal (num s : Int) : s ∣ alignUpHalfVal num s :=
  dvd_mul_left s _

theorem dvd_alignDownVal (t s : Int) : s ∣ alignDownVal t s :=
  dvd_mul_left s _

theorem dvd_minAlignedTick (s : Int) : s ∣ minAlignedTick s :=
  dvd_mul_left s _

theorem dvd_maxAlignedTick (s : Int) : s ∣ maxAlignedTick s :=
  dvd_mul_left s _

theorem bootstrapModeOf_aboveMax_iff (t minT maxT : Int) :
    bootstrapModeOf t minT maxT = .aboveMax ↔ maxT < t := by
  unfold bootstrapModeOf
  by_cases hmt : maxT < t <;> by_cases hlt : t < minT <;> simp [hmt, hlt]

theorem bootstrapModeOf_belowMin_iff (t minT maxT : Int) (h : minT ≤ maxT) :
    bootstrapModeOf t minT maxT = .belowMin ↔ t < minT := by
  unfold bootstrapModeOf
  by_cases hmt : maxT < t <;> by_cases hlt : t < minT <;> simp [hmt, hlt] <;> omega

theorem bootstrapModeOf_inRange_iff (t minT maxT : Int) :
    bootstrapModeOf t minT maxT = .inRange ↔ minT ≤ t ∧ t ≤ maxT := by
  unfold bootstrapModeOf
  by_cases hmt : maxT < t <;> by_cases hlt : t < minT <;> simp [hmt, hlt] <;> omega

theorem bootstrapModeOf_pin_up (t minT maxT : Int) :
    (if bootstrapModeOf t minT maxT = .inRange ∧ maxT < t then BootstrapMode.aboveMax
     else bootstrapModeOf t minT maxT) = bootstrapModeOf t minT maxT := by
  unfold bootstrapModeOf
  by_cases hmt : maxT < t <;> by_cases hlt : t < minT <;> simp [hmt, hlt]

theorem bootstrapModeOf_pin_down (t minT maxT : Int) :
    (if bootstrapModeOf t minT maxT = .inRange ∧ t < minT then BootstrapMode.belowMin
     else bootstrapModeOf t minT maxT) = bootstrapModeOf t minT maxT := by
  unfold bootstrapModeOf
  by_cases hmt : maxT < t <;> by_cases hlt : t < minT <;> simp [hmt, hlt]

/-- C1: for every integer tick, positive spacing, and width that is a positive
multiple of the spacing and fits the aligned global bounds,
computeBootstrapTicks succeeds, reports the aligned global bounds, aligns the
half-width window outward, pins upper to maxAligned (lower following at
distance width) when the aligned upper overshoots, pins lower to minAligned
symmetrically when the aligned lower undershoots, and tags the mode AboveMax
exactly when the raw tick exceeds maxAligned, BelowMin exactly when it is
below minAligned, and InRange otherwise. -/
theorem computeBootstrapTicks_clamps_and_tags (tick spacing width : Int)
    (hs : 0 < spacing) (hw : 0 < width) (hmul : width % spacing = 0)
    (hwide : width ≤ maxAlignedTick spacing - minAlignedTick spacing) :
    ∃ r : BootstrapTicks,
      computeBootstrapTicks tick spacing width = .ok r ∧
      r.minAligned = minAlignedTick spacing ∧
      r.maxAligned = maxAlignedTick spacing ∧
      (maxAlignedTick spacing < alignUpHalfVal (2 * tick + width) spacing →
        r.upper = maxAlignedTick spacing ∧ r.lower = maxAlignedTick spacing - width) ∧
      (alignUpHalfVal (2 * tick + width) spacing ≤ maxAlignedTick spacing →
        alignDownHalfVal (2 * tick - width) spacing < minAlignedTick spacing →
        r.lower = minAlignedTick spacing ∧ r.upper = minAlignedTick spacing + width) ∧
      (alignUpHalfVal (2 * tick + width) spacing ≤ maxAlignedTick spacing →
        minAlignedTick spacing ≤ alignDownHalfVal (2 * tick - width) spacing →
        r.lower = alignDownHalfVal (2 * tick - width) spacing ∧
        r.upper = alignUpHalfVal (2 * tick + width) spacing) ∧
      (r.mode = .aboveMax ↔ maxAlignedTick spacing < tick) ∧
      (r.mode = .belowMin ↔ tick < minAlignedTick spacing) ∧
      (r.mode = .inRange ↔ minAlignedTick spacing ≤ tick ∧ tick ≤ maxAlignedTick spacing) := by
  have hw' : ¬ (width ≤ 0) := by omega
  have hmul' : ¬ (width % spacing ≠ 0) := by simp [hmul]
  have hwide' : ¬ (maxAlignedTick spacing - minAlignedTick spacing < width) := by omega
  have hsle : ¬ (spacing ≤ 0) := by omega
  have hminmax : minAlignedTick spacing ≤ maxAlignedTick spacing := by omega
  have hA1 := two_mul_alignDownHalfVal_le (2 * tick - width) spacing hs
  have hB1 := le_two_mul_alignUpHalfVal (2 * tick + width) spacing hs
  have hMup := bootstrapModeOf_pin_up tick (minAlignedTick spacing) (maxAlignedTick spacing)
  have hMdown := bootstrapModeOf_pin_down tick (minAlignedTick spacing) (maxAlignedTick spacing)
  by_cases hbU : maxAlignedTick spacing < alignUpHalfVal (2 * tick + width) spacing
  · have hfin : ¬ (maxAlignedTick spacing ≤ maxAlignedTick spacing - width) := by omega
    refine ⟨⟨maxAlignedTick spacing - width, maxAlignedTick spacing, spacing,
        bootstrapModeOf tick (minAlignedTick spacing) (maxAlignedTick spacing),
        maxAlignedTick spacing, minAlignedTick spacing⟩, ?_, rfl, rfl, ?_, ?_, ?_, ?_, ?_, ?_⟩
    · simp only [computeBootstrapTicks, alignDownHalf, alignUpHalf, hw', hmul', hwide', hsle,
        if_false, ite_false, Except.bind, hbU, if_true, ite_true, hMup, hfin]
    · intro _
      exact ⟨rfl, rfl⟩
    · intro hle _
      omega
    · intro hle _
      omega
    · exact bootstrapModeOf_aboveMax_iff tick _ _
    · exact bootstrapModeOf_belowMin_iff tick _ _ hminmax
    · exact bootstrapModeOf_inRange_iff tick _ _
  · by_cases hbL : alignDownHalfVal (2 * tick - width) spacing < minAlignedTick spacing
    · have hfin : ¬ (minAlignedTick spacing + width ≤ minAlignedTick spacing) := by omega
      refine ⟨⟨minAlignedTick spacing, minAlignedTick spacing + width, spacing,
          bootstrapModeOf tick (minAlignedTick spacing) (maxAlignedTick spacing),
          maxAlignedTick spacing, minAlignedTick spacing⟩, ?_, rfl, rfl, ?_, ?_, ?_, ?_, ?_, ?_⟩
      · simp only [computeBootstrapTicks, alignDownHalf, alignUpHalf, hw', hmul', hwide', hsle,
          if_false, ite_false, Except.bind, hbU, hbL, if_true, ite_true, hMdown, hfin]
      · intro hlt
        omega
      · intro _ _
        exact ⟨rfl, rfl⟩
      · intro _ hge
        omega
      · exact bootstrapModeOf_aboveMax_iff tick _ _
      · exact bootstrapModeOf_belowMin_iff tick _ _ hminmax
      · exact bootstrapModeOf_inRange_iff tick _ _
    · have hfin : ¬ (alignUpHalfVal (2 * tick + width) spacing ≤
          alignDownHalfVal (2 * tick - width) spacing) := by omega
      refine ⟨⟨alignDownHalfVal (2 * tick - width) spacing,
          alignUpHalfVal (2 * tick + width) spacing, spacing,
          bootstrapModeOf tick (minAlignedTick spacing) (maxAlignedTick spacing),
          maxAlignedTick spacing, minAlignedTick spacing⟩, ?_, rfl, rfl, ?_, ?_, ?_, ?_, ?_, ?_⟩
      · simp only [computeBootstrapTicks, alignDownHalf, alignUpHalf, hw', hmul', hwide', hsle,
          if_false, ite_false, Except.bind, hbU, hbL, if_true, ite_true, hfin]
      · intro hlt
        omega
      · intro _ hlt
        omega
      · intro _ _
        exact ⟨rfl, rfl⟩
      · exact bootstrapModeOf_aboveMax_iff tick _ _
      · exact bootstrapModeOf_belowMin_iff tick _ _ hminmax
      · exact bootstrapModeOf_inRange_iff tick _ _

/-- Witness for C1 at the worked example of the specification: tick 887271,
spacing 60, width 1200 pins the window to 886020 .. 887220 with mode AboveMax
and aligned global bounds plus or minus 887220. -/
theorem computeBootstrapTicks_clamps_and_tags_witness :
    ∃ r : BootstrapTicks, computeBootstrapTicks 887271 60 1200 = .ok r ∧
      r.lower = 886020 ∧ r.upper = 887220 ∧ r.mode = .aboveMax ∧
      r.maxAligned = 887220 ∧ r.minAligned = -887220 := by
  obtain ⟨r, hok, hmin, hmax, hpin, _, _, habove, _, _⟩ :=
    computeBootstrapTicks_clamps_and_tags 887271 60 1200 (by decide) (by decide)
      (by decide) (by decide)
  have hp := hpin (by decide)
  refine ⟨r, hok, ?_, ?_, habove.mpr (by decide), ?_, ?_⟩
  · rw [hp.2]
    decide
  · rw [hp.1]
    decide
  · rw [hmax]
    decide
  · rw [hmin]
    decide

theorem computeBootstrapTicks_ok_guards (tick spacing width : Int) (r : BootstrapTicks)
    (h : computeBootstrapTicks tick spacing width = .ok r) :
    0 < spacing ∧ 0 < width ∧ width % spacing = 0 ∧
      width ≤ maxAlignedTick spacing - minAlignedTick spacing := by
  simp only [computeBootstrapTicks] at h
  split at h
  · exact absurd h (by simp)
  rename_i hw0
  split at h
  · exact absurd h (by simp)
  rename_i hmul0
  split at h
  · exact absurd h (by simp)
  rename_i hwide0
  unfold alignDownHalf at h
  split at h
  · exact absurd h (by simp [Except.bind])
  rename_i hs0
  push_neg at hmul0
  exact ⟨by omega, by omega, hmul0, by omega⟩

/-- C2 (amended): every successful tick range satisfies the invariant that
lower is strictly below upper and both are multiples of the spacing.  For
computeRangeTicks the width is met exactly, clamped or not.  For
computeBootstrapTicks the outward alignment can widen the window: the range
spans at least width and less than width plus twice the spacing, and it spans
exactly width whenever the range was pinned at an aligned global bound. -/
theorem tickRange_invariant :
    (∀ tick spacing width : Int, ∀ r : BootstrapTicks,
      computeBootstrapTicks tick spacing width = .ok r →
        r.lower < r.upper ∧ spacing ∣ r.lower ∧ spacing ∣ r.upper ∧
        width ≤ r.upper - r.lower ∧ r.upper - r.lower < width + 2 * spacing ∧
        ((maxAlignedTick spacing < alignUpHalfVal (2 * tick + width) spacing ∨
            alignDownHalfVal (2 * tick - width) spacing < minAlignedTick spacing) →
          r.upper - r.lower = width)) ∧
    (∀ tick spacing width : Int, ∀ p : TickRangePair,
      computeRangeTicks tick spacing width = .ok p →
        p.lower < p.upper ∧ spacing ∣ p.lower ∧ spacing ∣ p.upper ∧
        p.upper - p.lower = width) := by
  constructor
  · intro tick spacing width r h
    obtain ⟨hs, hw, hmul, hwide⟩ := computeBootstrapTicks_ok_guards tick spacing width r h
    obtain ⟨r', hok, hmin, hmax, hpinU, hpinL, hfree, _, _, _⟩ :=
      computeBootstrapTicks_clamps_and_tags tick spacing width hs hw hmul hwide
    rw [h] at hok
    have hrr : r' = r := by
      injection hok with hok'
      exact hok'.symm
    subst hrr
    have hdw : spacing ∣ width := Int.dvd_of_emod_eq_zero hmul
    have hA1 := two_mul_alignDownHalfVal_le (2 * tick - width) spacing hs
    have hA2 := lt_two_mul_alignDownHalfVal (2 * tick - width) spacing hs
    have hB1 := le_two_mul_alignUpHalfVal (2 * tick + width) spacing hs
    have hB2 := two_mul_alignUpHalfVal_lt (2 * tick + width) spacing hs
    by_cases hbU : maxAlignedTick spacing < alignUpHalfVal (2 * tick + width) spacing
    · obtain ⟨hu, hl⟩ := hpinU hbU
      refine ⟨by omega, ?_, ?_, by omega, by omega, fun _ => by omega⟩
      · rw [hl]
        exact dvd_sub (dvd_maxAlignedTick spacing) hdw
      · rw [hu]
        exact dvd_maxAlignedTick spacing
    · push_neg at hbU
      by_cases hbL : alignDownHalfVal (2 * tick - width) spacing < minAlignedTick spacing
      · obtain ⟨hl, hu⟩ := hpinL hbU hbL
        refine ⟨by omega, ?_, ?_, by omega, by omega, fun _ => by omega⟩
        · rw [hl]
          exact dvd_minAlignedTick spacing
        · rw [hu]
          exact dvd_add (dvd_minAlignedTick spacing) hdw
      · push_neg at hbL
        obtain ⟨hl, hu⟩ := hfree hbU hbL
        refine ⟨by omega, ?_, ?_, by omega, by omega, fun hcl => ?_⟩
        · rw [hl]
          exact dvd_alignDownHalfVal _ _
        · rw [hu]
          exact dvd_alignUpHalfVal _ _
        · rcases hcl with hcu | hcd
          · omega
          · omega
  · intro tick spacing width p h
    simp only [computeRangeTicks] at h
    split at h
    · exact absurd h (by simp)
    rename_i hw0
    split at h
    · exact absurd h (by simp)
    rename_i hmul0
    split at h
    · exact absurd h (by simp)
    rename_i hout0
    split at h
    · exact absurd h (by simp)
    rename_i hwide0
    unfold alignDown at h
    split at h
    · exact absurd h (by simp [Except.bind])
    rename_i hs0
    simp only [Except.bind] at h
    push_neg at hmul0
    have hdw : spacing ∣ width := Int.dvd_of_emod_eq_zero hmul0
    by_cases hc1 : alignDownVal (tick - mathFloorDiv width 2) spacing < minAlignedTick spacing
    · simp only [hc1, if_true, ite_true] at h
      split at h
      · exact absurd h (by simp)
      split at h
      · exact absurd h (by simp)
      injection h with h'
      subst h'
      dsimp only
      exact ⟨by omega, dvd_minAlignedTick spacing,
        dvd_add (dvd_minAlignedTick spacing) hdw, by omega⟩
    · simp only [hc1, if_false, ite_false] at h
      by_cases hc2 : maxAlignedTick spacing <
          alignDownVal (tick - mathFloorDiv width 2) spacing + width
      · simp only [hc2, if_true, ite_true] at h
        split at h
        · exact absurd h (by simp)
        split at h
        · exact absurd h (by simp)
        injection h with h'
        subst h'
        dsimp only
        exact ⟨by omega, dvd_sub (dvd_maxAlignedTick spacing) hdw,
          dvd_maxAlignedTick spacing, by omega⟩
      · simp only [hc2, if_false, ite_false] at h
        split at h
        · exact absurd h (by simp)
        split at h
        · exact absurd h (by simp)
        injection h with h'
        subst h'
        dsimp only
        refine ⟨by omega, dvd_alignDownVal _ _, dvd_add (dvd_alignDownVal _ _) hdw, by omega⟩

/-- Counterexample for C2 as frozen: at tick 599, spacing 60, width 1200 the
bootstrap range is not clamped by the aligned global bounds, yet the outward
alignment makes the range 1260 ticks wide rather than 1200. -/
theorem tickRange_width_counterexample :
    computeBootstrapTicks 599 60 1200 =
      .ok ⟨-60, 1200, 60, .inRange, 887220, -887220⟩ ∧
    ((-887220 : Int) ≤ -60 ∧ (1200 : Int) ≤ 887220) ∧
    (1200 : Int) - (-60 : Int) ≠ 1200 := by
  refine ⟨by decide, by decide, by decide⟩

/-- Witness for C2: the invariant theorem applied to the concrete bootstrap
range at tick 599 and the concrete re-centering range at tick 12345. -/
theorem tickRange_invariant_witness :
    (computeBootstrapTicks 599 60 1200 = .ok ⟨-60, 1200, 60, .inRange, 887220, -887220⟩ ∧
      (-60 : Int) < 1200 ∧ (60 : Int) ∣ (-60 : Int) ∧ (60 : Int) ∣ (1200 : Int)) ∧
    (computeRangeTicks 12345 60 1200 = .ok ⟨11700, 12900⟩ ∧
      (11700 : Int) < 12900 ∧ (12900 : Int) - 11700 = 1200) := by
  have h1 : computeBootstrapTicks 599 60 1200 =
      .ok ⟨-60, 1200, 60, .inRange, 887220, -887220⟩ := by decide
  have h2 : computeRangeTicks 12345 60 1200 = .ok ⟨11700, 12900⟩ := by decide
  obtain ⟨hb1, hb2, hb3, _, _, _⟩ := tickRange_invariant.1 599 60 1200 _ h1
  obtain ⟨hr1, _, _, hr4⟩ := tickRange_invariant.2 12345 60 1200 _ h2
  exact ⟨⟨h1, hb1, hb2, hb3⟩, ⟨h2, hr1, hr4⟩⟩

/-- Policy configuration as consumed by the cooldown gate. -/
structure PolicyConfig where
  cooldownSeconds : Int

/-- Persisted cooldown state: the lastActionAt table of keeper-state.json,
keyed by lower-cased vault address.  The file read and write of the source are
replaced by passing the table explicitly. -/
def CooldownMap : Type := String → Option Int

/-- The assertCooldown function of the cooldown module: passes when the policy
has no cooldown or no action is recorded for the vault, and fails carrying the
remaining wait when now is before lastActionAt plus cooldownSeconds.  The
source tests absence of a record with JavaScript truthiness, so a stored zero
timestamp also passes. -/
def assertCooldown (policy : PolicyConfig) (lastActionAt : CooldownMap)
    (vaultAddress : String) (now : Int) : Except KeeperError Unit :=
  if policy.cooldownSeconds ≤ 0 then .ok ()
  else
    match lastActionAt (vaultAddress.toLower) with
    | none => .ok ()
    | some last =>
      if last = 0 then .ok ()
      else
        let nextAllowed := last + policy.cooldownSeconds
        if now < nextAllowed then .error (.cooldownActive (nextAllowed - now))
        else .ok ()

/-- The recordAction function of the cooldown module: a no-op when the policy
has no cooldown, otherwise stores now under the lower-cased vault address. -/
def recordAction (policy : PolicyConfig) (lastActionAt : CooldownMap)
    (vaultAddress : String) (now : Int) : CooldownMap :=
  if policy.cooldownSeconds ≤ 0 then lastActionAt
  else fun key => if key = vaultAddress.toLower then some now else lastActionAt key

/-- C10: assertCooldown fails with the cooldown-active error, carrying the
remaining seconds, exactly when the policy cooldown is positive, a recorded
timestamp is present for the target (the source treats a zero timestamp as
absent), and now is before that timestamp plus the cooldown; in particular it
always passes when the cooldown is non-positive or nothing was recorded.
recordAction stores now for the target and is a no-op for a non-positive
cooldown; assertCooldown straight after recordAction with a positive cooldown
fails, and passes again once the cooldown has elapsed. -/
theorem assertCooldown_recordAction_spec :
    (∀ (p : PolicyConfig) (m : CooldownMap) (a : String) (now : Int) (e : KeeperError),
        assertCooldown p m a now = .error e ↔
          0 < p.cooldownSeconds ∧ ∃ last,
            m a.toLower = some last ∧ last ≠ 0 ∧
            now < last + p.cooldownSeconds ∧
            e = .cooldownActive (last + p.cooldownSeconds - now)) ∧
    (∀ (p : PolicyConfig) (m : CooldownMap) (a : String) (now : Int),
        p.cooldownSeconds ≤ 0 → assertCooldown p m a now = .ok ()) ∧
    (∀ (p : PolicyConfig) (m : CooldownMap) (a : String) (now : Int),
        m a.toLower = none → assertCooldown p m a now = .ok ()) ∧
    (∀ (p : PolicyConfig) (m : CooldownMap) (a : String) (now : Int),
        p.cooldownSeconds ≤ 0 → recordAction p m a now = m) ∧
    (∀ (p : PolicyConfig) (m : CooldownMap) (a : String) (now : Int),
        0 < p.cooldownSeconds → recordAction p m a now a.toLower = some now) ∧
    (∀ (p : PolicyConfig) (m : CooldownMap) (a : String) (now : Int),
        0 < p.cooldownSeconds → 0 < now →
        assertCooldown p (recordAction p m a now) a now =
          .error (.cooldownActive p.cooldownSeconds)) ∧
    (∀ (p : PolicyConfig) (m : CooldownMap) (a : String) (now elapsed : Int),
        0 < p.cooldownSeconds → p.cooldownSeconds ≤ elapsed →
        assertCooldown p (recordAction p m a now) a (now + elapsed) = .ok ()) := by
  refine ⟨?_, ?_, ?_, ?_, ?_, ?_, ?_⟩
  · intro p m a now e
    unfold assertCooldown
    by_cases hcd : p.cooldownSeconds ≤ 0
    · simp [hcd]
    · simp only [hcd, if_false, ite_false]
      cases hm : m a.toLower with
      | none => simp [hm]
      | some last =>
        by_cases hz : last = 0
        · simp [hz]
        · by_cases hnow : now < last + p.cooldownSeconds
          · simp only [hz, if_false, ite_false, hnow, if_true, ite_true]
            constructor
            · intro he
              injection he with he'
              exact ⟨by omega, last, rfl, hz, hnow, by rw [he']⟩
            · rintro ⟨-, last', hl', -, -, he⟩
              injection hl' with hl''
              subst hl''
              rw [he]
          · simp only [hz, if_false, ite_false, hnow, if_true, ite_true]
            constructor
            · intro he
              exact absurd he (by simp)
            · rintro ⟨-, last', hl', -, hn, -⟩
              injection hl' with hl''
              subst hl''
              omega
  · intro p m a now hcd
    unfold assertCooldown
    simp [hcd]
  · intro p m a now hm
    unfold assertCooldown
    by_cases hcd : p.cooldownSeconds ≤ 0 <;> simp [hcd, hm]
  · intro p m a now hcd
    unfold recordAction
    simp [hcd]
  · intro p m a now hcd
    have hcd' : ¬ p.cooldownSeconds ≤ 0 := by omega
    unfold recordAction
    simp [hcd']
  · intro p m a now hcd hnow
    have hcd' : ¬ p.cooldownSeconds ≤ 0 := by omega
    unfold assertCooldown recordAction
    simp only [hcd', if_false, ite_false, if_pos rfl]
    have hz : ¬ now = 0 := by omega
    have hlt : now < now + p.cooldownSeconds := by omega
    simp only [hz, if_false, ite_false, hlt, if_true, ite_true]
    have : now + p.cooldownSeconds - now = p.cooldownSeconds := by omega
    rw [this]
  · intro p m a now elapsed hcd hel
    have hcd' : ¬ p.cooldownSeconds ≤ 0 := by omega
    unfold assertCooldown recordAction
    simp only [hcd', if_false, ite_false, if_pos rfl]
    by_cases hz : now = 0
    · simp [hz]
    · have hge : ¬ now + elapsed < now + p.cooldownSeconds := by omega
      simp [hz, hge]

/-- Sample vault address used by the cooldown witness. -/
def sampleVault : String := "0xAbC"

/-- Sample empty cooldown state used by the cooldown witness. -/
def emptyCooldownMap : CooldownMap := fun _ => none

/-- Witness for C10: a 300 second cooldown recorded at time 1000 blocks an
action at time 1000 with 300 seconds remaining, and passes at time 1300. -/
theorem assertCooldown_recordAction_spec_witness :
    assertCooldown ⟨300⟩ (recordAction ⟨300⟩ emptyCooldownMap sampleVault 1000) sampleVault 1000 =
      .error (.cooldownActive 300) ∧
    assertCooldown ⟨300⟩ (recordAction ⟨300⟩ emptyCooldownMap sampleVault 1000) sampleVault
      (1000 + 300) = .ok () := by
  exact ⟨assertCooldown_recordAction_spec.2.2.2.2.2.1 ⟨300⟩ emptyCooldownMap sampleVault 1000
      (by decide) (by decide),
    assertCooldown_recordAction_spec.2.2.2.2.2.2 ⟨300⟩ emptyCooldownMap sampleVault 1000 300
      (by decide) (by decide)⟩

/-- Fixed point base Q96, one shifted left by 96 bits, as in uniswap/position. -/
def Q96 : Int := 2 ^ 96

/-- Largest unsigned 256 bit integer, used by the sqrt ratio table algorithm. -/
def MaxUint256 : Nat := 2 ^ 256 - 1

/-- One multiply-and-shift step of the tick table: the product shifted right
by 128 bits. -/
def mulShift (val mulBy : Nat) : Nat := val * mulBy / 2 ^ 128

/-- Conditional table step keyed on one bit of the absolute tick. -/
def tickStep (absTick bit mulBy ratio : Nat) : Nat :=
  if absTick &&& bit ≠ 0 then mulShift ratio mulBy else ratio

/-- The getSqrtRatioAtTick algorithm behind uniswap/position.  The source
delegates to the external sdk TickMath, and the specification requires the
protocol-standard table algorithm bit for bit; this is that algorithm:
a product of Q128 fixed point constants selected by the bits of the absolute
tick, inverted for positive ticks, and converted to Q96 rounding up. -/
def getSqrtRatioAtTickNat (tick : Int) : Nat :=
  let absTick : Nat := tick.natAbs
  let r : Nat :=
    if absTick &&& 0x1 ≠ 0 then 0xfffcb933bd6fad37aa2d162d1a594001
    else 0x100000000000000000000000000000000
  let r := tickStep absTick 0x2 0xfff97272373d413259a46990580e213a r
  let r := tickStep absTick 0x4 0xfff2e50f5f656932ef12357cf3c7fdcc r
  let r := tickStep absTick 0x8 0xffe5caca7e10e4e61c3624eaa0941cd0 r
  let r := tickStep absTick 0x10 0xffcb9843d60f6159c9db58835c926644 r
  let r := tickStep absTick 0x20 0xff973b41fa98c081472e6896dfb254c0 r
  let r := tickStep absTick 0x40 0xff2ea16466c96a3843ec78b326b52861 r
  let r := tickStep absTick 0x80 0xfe5dee046a99a2a811c461f1969c3053 r
  let r := tickStep absTick 0x100 0xfcbe86c7900a88aedcffc83b479aa3a4 r
  let r := tickStep absTick 0x200 0xf987a7253ac413176f2b074cf7815e54 r
  let r := tickStep absTick 0x400 0xf3392b0822b70005940c7a398e4b70f3 r
  let r := tickStep absTick 0x800 0xe7159475a2c29b7443b29c7fa6e889d9 r
  let r := tickStep absTick 0x1000 0xd097f3bdfd2022b8845ad8f792aa5825 r
  let r := tickStep absTick 0x2000 0xa9f746462d870fdf8a65dc1f90e061e5 r
  let r := tickStep absTick 0x4000 0x70d869a156d2a1b890bb3df62baf32f7 r
  let r := tickStep absTick 0x8000 0x31be135f97d08fd981231505542fcfa6 r
  let r := tickStep absTick 0x10000 0x9aa508b5b7a84e1c677de54f3e99bc9 r
  let r := tickStep absTick 0x20000 0x5d6af8dedb81196699c329225ee604 r
  let r := tickStep absTick 0x40000 0x2216e584f5fa1ea926041bedfe98 r
  let r := tickStep absTick 0x80000 0x48a170391f7dc42444e8fa2 r
  let r := if 0 < tick then MaxUint256 / r else r
  if r % 2 ^ 32 > 0 then r / 2 ^ 32 + 1 else r / 2 ^ 32

/-- The getSqrtRatioAtTick wrapper of uniswap/position, as a bigint. -/
def getSqrtRatioAtTick (tick : Int) : Int := (getSqrtRatioAtTickNat tick : Int)

/-- Sqrt ratio pair with its difference, as returned by
getBoundarySqrtRatios. -/
structure BoundaryRatios where
  sqrtLowerX96 : Int
  sqrtUpperX96 : Int
  diff : Int
  deriving DecidableEq

/-- The getBoundarySqrtRatios function of uniswap/position: fails unless the
sqrt ratios are strictly ordered. -/
def getBoundarySqrtRatios (tickLower tickUpper : Int) : Except KeeperError BoundaryRatios :=
  let sqrtLowerX96 := getSqrtRatioAtTick tickLower
  let sqrtUpperX96 := getSqrtRatioAtTick tickUpper
  if sqrtUpperX96 ≤ sqrtLowerX96 then .error .invalidSqrtRatioOrdering
  else .ok ⟨sqrtLowerX96, sqrtUpperX96, sqrtUpperX96 - sqrtLowerX96⟩

/-- The ceilDiv helper of uniswap/position on bigints. -/
def ceilDiv (num den : Int) : Except KeeperError Int :=
  if den = 0 then .error .divisionByZero
  else .ok ((num + den - 1).tdiv den)

/-- The computeBoundaryLiquidity function of uniswap/position: one-sided
liquidity at a boundary range, token1-only above the maximum and token0-only
below the minimum. -/
def computeBoundaryLiquidity (tickLower tickUpper : Int) (amount0 amount1 : Int)
    (mode : BootstrapMode) : Except KeeperError Int :=
  if mode = .inRange then .error .boundaryLiquidityRequiresBoundaryMode
  else
    (getBoundarySqrtRatios tickLower tickUpper).bind fun r =>
      if mode = .aboveMax then
        if amount1 ≤ 0 then .error .aboveMaxRequiresAmount1
        else .ok ((amount1 * Q96).tdiv r.diff)
      else
        if amount0 ≤ 0 then .error .belowMinRequiresAmount0
        else .ok ((amount0 * r.sqrtLowerX96 * r.sqrtUpperX96).tdiv (Q96 * r.diff))

/-- The computeBoundaryMinAmountForLiquidityOne function of uniswap/position:
the ceiling-division inverse of the boundary liquidity formulas. -/
def computeBoundaryMinAmountForLiquidityOne (tickLower tickUpper : Int)
    (mode : BootstrapMode) : Except KeeperError Int :=
  if mode = .inRange then .error .boundaryMinAmountRequiresBoundaryMode
  else
    (getBoundarySqrtRatios tickLower tickUpper).bind fun r =>
      if mode = .aboveMax then ceilDiv r.diff Q96
      else ceilDiv (Q96 * r.diff) (r.sqrtLowerX96 * r.sqrtUpperX96)

theorem getSqrtRatioAtTick_nonneg (tick : Int) : 0 ≤ getSqrtRatioAtTick tick :=
  Int.natCast_nonneg _

theorem tdiv_eq_fdiv_of_nonneg (a b : Int) (ha : 0 ≤ a) (hb : 0 ≤ b) :
    a.tdiv b = a.fdiv b := by
  rw [Int.tdiv_eq_ediv ha hb, Int.fdiv_eq_ediv _ hb]

theorem le_mul_ceil_tdiv (a b : Int) (ha : 0 < a) (hb : 0 < b) :
    a ≤ b * ((a + b - 1).tdiv b) ∧ 1 ≤ (a + b - 1).tdiv b := by
  rw [Int.tdiv_eq_ediv (by omega) hb.le]
  have h1 := Int.ediv_add_emod (a + b - 1) b
  have h2 := Int.emod_nonneg (a + b - 1) hb.ne'
  have h3 := Int.emod_lt_of_pos (a + b - 1) hb
  have hkey : b * ((a + b - 1) / b) = (a + b - 1) - (a + b - 1) % b := by linarith
  have hge : a ≤ b * ((a + b - 1) / b) := by linarith
  refine ⟨hge, ?_⟩
  by_contra hq
  push_neg at hq
  have hq' : (a + b - 1) / b ≤ 0 := by omega
  have : b * ((a + b - 1) / b) ≤ 0 := mul_nonpos_of_nonneg_of_nonpos hb.le hq'
  omega

/-- C3: with strictly ordered sqrt ratios, computeBoundaryLiquidity returns
floor (amount1 * Q96 / diff) in mode AboveMax when amount1 is positive and
fails otherwise, returns floor (amount0 * sqrtLower * sqrtUpper / (Q96 * diff))
in mode BelowMin when amount0 is positive and fails otherwise, and always
fails in mode InRange. -/
theorem computeBoundaryLiquidity_formulas (tickLower tickUpper : Int)
    (amount0 amount1 : Int)
    (htick : tickLower < tickUpper)
    (hord : getSqrtRatioAtTick tickLower < getSqrtRatioAtTick tickUpper) :
    (computeBoundaryLiquidity tickLower tickUpper amount0 amount1 .aboveMax =
      if 0 < amount1 then
        .ok (Int.fdiv (amount1 * Q96)
          (getSqrtRatioAtTick tickUpper - getSqrtRatioAtTick tickLower))
      else .error .aboveMaxRequiresAmount1) ∧
    (computeBoundaryLiquidity tickLower tickUpper amount0 amount1 .belowMin =
      if 0 < amount0 then
        .ok (Int.fdiv (amount0 * getSqrtRatioAtTick tickLower * getSqrtRatioAtTick tickUpper)
          (Q96 * (getSqrtRatioAtTick tickUpper - getSqrtRatioAtTick tickLower)))
      else .error .belowMinRequiresAmount0) ∧
    computeBoundaryLiquidity tickLower tickUpper amount0 amount1 .inRange =
      .error .boundaryLiquidityRequiresBoundaryMode := by
  have hord' : ¬ (getSqrtRatioAtTick tickUpper ≤ getSqrtRatioAtTick tickLower) := by omega
  have hL0 := getSqrtRatioAtTick_nonneg tickLower
  have hU0 := getSqrtRatioAtTick_nonneg tickUpper
  have hQ : (0 : Int) ≤ Q96 := by decide
  refine ⟨?_, ?_, ?_⟩
  · by_cases ha : amount1 ≤ 0
    · have ha' : ¬ (0 < amount1) := by omega
      simp [computeBoundaryLiquidity, getBoundarySqrtRatios, hord', ha, ha', Except.bind]
    · have ha' : 0 < amount1 := by omega
      have heq := tdiv_eq_fdiv_of_nonneg (amount1 * Q96)
        (getSqrtRatioAtTick tickUpper - getSqrtRatioAtTick tickLower)
        (by positivity) (by omega)
      simp [computeBoundaryLiquidity, getBoundarySqrtRatios, hord', ha, ha', Except.bind, heq]
  · by_cases ha : amount0 ≤ 0
    · have ha' : ¬ (0 < amount0) := by omega
      simp [computeBoundaryLiquidity, getBoundarySqrtRatios, hord', ha, ha', Except.bind]
    · have ha' : 0 < amount0 := by omega
      have hnum : (0 : Int) ≤ amount0 * getSqrtRatioAtTick tickLower * getSqrtRatioAtTick tickUpper := by
        positivity
      have hden : (0 : Int) ≤ Q96 * (getSqrtRatioAtTick tickUpper - getSqrtRatioAtTick tickLower) := by
        have : (0 : Int) ≤ getSqrtRatioAtTick tickUpper - getSqrtRatioAtTick tickLower := by omega
        positivity
      have heq := tdiv_eq_fdiv_of_nonneg _ _ hnum hden
      simp [computeBoundaryLiquidity, getBoundarySqrtRatios, hord', ha, ha', Except.bind, heq]
  · simp [computeBoundaryLiquidity]

/-- Witness for C3 at ticks 0 and 60 with one million units of token1: the
call evaluates to the floored quotient of the claim. -/
theorem computeBoundaryLiquidity_formulas_witness :
    computeBoundaryLiquidity 0 60 0 1000000 .aboveMax =
      .ok (Int.fdiv ((1000000 : Int) * Q96)
        (getSqrtRatioAtTick 60 - getSqrtRatioAtTick 0)) ∧
    computeBoundaryLiquidity 0 60 0 1000000 .inRange =
      .error .boundaryLiquidityRequiresBoundaryMode := by
  have h := computeBoundaryLiquidity_formulas 0 60 0 1000000 (by decide) (by decide)
  exact ⟨h.1.trans (if_pos (by decide)), h.2.2⟩

/-- C4: with strictly ordered positive sqrt ratios, feeding the minimum amount
returned by computeBoundaryMinAmountForLiquidityOne back into
computeBoundaryLiquidity as the corresponding one-sided amount succeeds and
yields liquidity at least one, in both boundary modes. -/
theorem boundaryMinAmount_yields_liquidity_one (tickLower tickUpper : Int)
    (htick : tickLower < tickUpper)
    (hord : getSqrtRatioAtTick tickLower < getSqrtRatioAtTick tickUpper)
    (hposL : 0 < getSqrtRatioAtTick tickLower) :
    (∃ a1 L, computeBoundaryMinAmountForLiquidityOne tickLower tickUpper .aboveMax = .ok a1 ∧
      computeBoundaryLiquidity tickLower tickUpper 0 a1 .aboveMax = .ok L ∧ 1 ≤ L) ∧
    (∃ a0 L, computeBoundaryMinAmountForLiquidityOne tickLower tickUpper .belowMin = .ok a0 ∧
      computeBoundaryLiquidity tickLower tickUpper a0 0 .belowMin = .ok L ∧ 1 ≤ L) := by
  have hord' : ¬ (getSqrtRatioAtTick tickUpper ≤ getSqrtRatioAtTick tickLower) := by omega
  have hQpos : (0 : Int) < Q96 := by decide
  have hdiff : (0 : Int) < getSqrtRatioAtTick tickUpper - getSqrtRatioAtTick tickLower := by
    omega
  have hU : (0 : Int) < getSqrtRatioAtTick tickUpper := by omega
  constructor
  · obtain ⟨hle, hone⟩ := le_mul_ceil_tdiv
      (getSqrtRatioAtTick tickUpper - getSqrtRatioAtTick tickLower) Q96 hdiff hQpos
    set a1 := ((getSqrtRatioAtTick tickUpper - getSqrtRatioAtTick tickLower) + Q96 - 1).tdiv Q96
      with ha1
    have ha1pos : ¬ (a1 ≤ 0) := by omega
    refine ⟨a1, (a1 * Q96).tdiv (getSqrtRatioAtTick tickUpper - getSqrtRatioAtTick tickLower),
      ?_, ?_, ?_⟩
    · simp [computeBoundaryMinAmountForLiquidityOne, getBoundarySqrtRatios, hord', ceilDiv,
        Except.bind, hQpos.ne', ha1]
    · simp [computeBoundaryLiquidity, getBoundarySqrtRatios, hord', ha1pos, Except.bind]
    · rw [Int.tdiv_eq_ediv (by nlinarith) (by omega)]
      rw [Int.le_ediv_iff_mul_le hdiff]
      nlinarith
  · have hprod : (0 : Int) < getSqrtRatioAtTick tickLower * getSqrtRatioAtTick tickUpper := by
      positivity
    have hnum : (0 : Int) < Q96 * (getSqrtRatioAtTick tickUpper - getSqrtRatioAtTick tickLower) := by
      positivity
    obtain ⟨hle, hone⟩ := le_mul_ceil_tdiv
      (Q96 * (getSqrtRatioAtTick tickUpper - getSqrtRatioAtTick tickLower))
      (getSqrtRatioAtTick tickLower * getSqrtRatioAtTick tickUpper) hnum hprod
    set a0 := (Q96 * (getSqrtRatioAtTick tickUpper - getSqrtRatioAtTick tickLower) +
        getSqrtRatioAtTick tickLower * getSqrtRatioAtTick tickUpper - 1).tdiv
        (getSqrtRatioAtTick tickLower * getSqrtRatioAtTick tickUpper) with ha0
    have ha0pos : ¬ (a0 ≤ 0) := by omega
    refine ⟨a0, (a0 * getSqrtRatioAtTick tickLower * getSqrtRatioAtTick tickUpper).tdiv
      (Q96 * (getSqrtRatioAtTick tickUpper - getSqrtRatioAtTick tickLower)), ?_, ?_, ?_⟩
    · simp [computeBoundaryMinAmountForLiquidityOne, getBoundarySqrtRatios, hord', ceilDiv,
        Except.bind, hprod.ne', ha0]
    · simp [computeBoundaryLiquidity, getBoundarySqrtRatios, hord', ha0pos, Except.bind]
    · rw [Int.tdiv_eq_ediv (by nlinarith) (by positivity)]
      rw [Int.le_ediv_iff_mul_le hnum]
      nlinarith

/-- Witness for C4 at ticks 0 and 60: both boundary modes round-trip the
minimum amount into liquidity at least one. -/
theorem boundaryMinAmount_yields_liquidity_one_witness :
    (∃ a1 L, computeBoundaryMinAmountForLiquidityOne 0 60 .aboveMax = .ok a1 ∧
      computeBoundaryLiquidity 0 60 0 a1 .aboveMax = .ok L ∧ 1 ≤ L) ∧
    (∃ a0 L, computeBoundaryMinAmountForLiquidityOne 0 60 .belowMin = .ok a0 ∧
      computeBoundaryLiquidity 0 60 a0 0 .belowMin = .ok L ∧ 1 ≤ L) :=
  boundaryMinAmount_yields_liquidity_one 0 60 (by decide) (by decide) (by decide)

/-- Warning messages pushed by the amount selector, one constructor per
distinct message; the quote failure warnings carry the caught error. -/
inductive Warning where
  | clampedToken0
  | clampedToken1
  | quoteFailedUsingFullToken1 (e : KeeperError)
  | quoteFailedUsingFullToken0 (e : KeeperError)
  | scaledAmount0ToFit
  | scaledAmount1ToFit
  deriving DecidableEq

/-- Result of selectAmounts.  The informational quote field of the source
(direction, amounts and a float-formatted price string) is omitted: no claim
constrains it. -/
structure AmountSelectionResult where
  amount0 : Int
  amount1 : Int
  derived : Bool
  scaled : Bool
  warnings : List Warning
  deriving DecidableEq

/-- Inputs of selectAmounts.  Balances and parsed amount inputs are in
smallest units: the source parses its decimal string inputs with the external
parseUnits helper, whose output these fields carry.  The two direction flags
stand for the lower-cased address comparisons of the source, and quoteFn for
the quoter round trip keyed on that flag. -/
structure AmountSelectionParams where
  balance0 : Int
  balance1 : Int
  amount0Input : Option Int
  amount1Input : Option Int
  useFullBalances : Bool
  hasQuoter : Bool
  token0IsCurrency0 : Bool
  token1IsCurrency0 : Bool
  bufferBps : Int
  maxSpendBps : Int
  quoteFn : Bool → Int → Except KeeperError Int

/-- The clampAmount helper: clamps to the limit, pushing a warning. -/
def clampAmount (amount limit : Int) (w : Warning) (warnings : List Warning) :
    Int × List Warning :=
  if limit < amount then (limit, warnings ++ [w]) else (amount, warnings)

/-- The applyMaxSpend helper: the spend limit derived from a balance and the
max spend cap in basis points. -/
def applyMaxSpend (balance maxSpendBps : Int) : Int :=
  if 10000 ≤ maxSpendBps then balance
  else if maxSpendBps ≤ 0 then 0
  else (balance * maxSpendBps).tdiv 10000

/-- The applyBpsBuffer helper of uniswap/quoter: validates the buffer and
scales the value up by the buffer in basis points. -/
def applyBpsBuffer (value bpsBuffer : Int) : Except KeeperError Int :=
  if bpsBuffer < 0 ∨ 10000 < bpsBuffer then .error .invalidBufferBps
  else .ok ((value * (10000 + bpsBuffer)).tdiv 10000)

/-- The scaleInputToFit helper: rescales the input amount with a half percent
safety margin below the proportional fit. -/
def scaleInputToFit (input derived limit : Int) : Except KeeperError Int :=
  if derived = 0 then .error .derivedZeroCannotScale
  else .ok ((input * limit * 995).tdiv (derived * 1000))

/-- The bounded rescale loop of selectAmounts, written once and used for both
directions: while the buffered derived amount exceeds the limit, rescale the
input, fail if it fell to zero, re-quote and recompute the buffered derived
amount.  The fuel is the remaining loop iterations, five at the call sites;
when it runs out, the check after the loop rejects a derived amount that
still exceeds the limit. -/
def fitLoop (q : Int → Except KeeperError Int) (bufferBps limit : Int)
    (zeroErr exceedErr : KeeperError) :
    Nat → Int → Int → Bool → Except KeeperError (Int × Int × Bool)
  | 0, input, derivedAmt, scaled =>
    if derivedAmt ≤ limit then .ok (input, derivedAmt, scaled)
    else .error exceedErr
  | fuel + 1, input, derivedAmt, scaled =>
    if derivedAmt ≤ limit then .ok (input, derivedAmt, scaled)
    else
      (scaleInputToFit input derivedAmt limit).bind fun input' =>
        if input' ≤ 0 then .error zeroErr
        else
          (q input').bind fun quoted =>
            (applyBpsBuffer quoted bufferBps).bind fun derivedAmt' =>
              fitLoop q bufferBps limit zeroErr exceedErr fuel input' derivedAmt' true

/-- The selectAmounts function of amounts.  Follows the source paths: full
balances, both sides given, or one side given with the other derived from the
quote; the quote failure fallback and the rescale loop are as in the source.
The try block around the initial quote also covers the buffer application, as
in the source. -/
def selectAmounts (p : AmountSelectionParams) : Except KeeperError AmountSelectionResult :=
  let limit0 := applyMaxSpend p.balance0 p.maxSpendBps
  let limit1 := applyMaxSpend p.balance1 p.maxSpendBps
  if p.useFullBalances then
    let s0 : Int × List Warning :=
      match p.amount0Input with
      | some a0 => clampAmount a0 limit0 .clampedToken0 []
      | none => (limit0, [])
    let s1 : Int × List Warning :=
      match p.amount1Input with
      | some a1 => clampAmount a1 limit1 .clampedToken1 s0.2
      | none => (limit1, s0.2)
    .ok ⟨s0.1, s1.1, false, false, s1.2⟩
  else
    match p.amount0Input, p.amount1Input with
    | none, none => .error .missingAmountInputs
    | some a0, some a1 =>
      let s0 := clampAmount a0 limit0 .clampedToken0 []
      let s1 := clampAmount a1 limit1 .clampedToken1 s0.2
      .ok ⟨s0.1, s1.1, false, false, s1.2⟩
    | some a0, none =>
      if ¬ p.hasQuoter then .error .quoterRequired
      else
        let s0 := clampAmount a0 limit0 .clampedToken0 []
        match (p.quoteFn p.token0IsCurrency0 s0.1).bind
            (fun quoted => applyBpsBuffer quoted p.bufferBps) with
        | .error e =>
          if limit1 ≤ 0 then .error .noFallbackToken1Balance
          else .ok ⟨s0.1, limit1, false, false, s0.2 ++ [.quoteFailedUsingFullToken1 e]⟩
        | .ok derivedAmount1 =>
          match fitLoop (p.quoteFn p.token0IsCurrency0) p.bufferBps limit1
              .scaledAmount0FellToZero .derivedToken1ExceedsBalance 5 s0.1 derivedAmount1
              false with
          | .error e => .error e
          | .ok out =>
            let warnings := if out.2.2 then s0.2 ++ [.scaledAmount0ToFit] else s0.2
            .ok ⟨out.1, out.2.1, true, out.2.2, warnings⟩
    | none, some a1 =>
      if ¬ p.hasQuoter then .error .quoterRequired
      else
        let s1 := clampAmount a1 limit1 .clampedToken1 []
        match (p.quoteFn p.token1IsCurrency0 s1.1).bind
            (fun quoted => applyBpsBuffer quoted p.bufferBps) with
        | .error e =>
          if limit0 ≤ 0 then .error .noFallbackToken0Balance
          else .ok ⟨limit0, s1.1, false, false, s1.2 ++ [.quoteFailedUsingFullToken0 e]⟩
        | .ok derivedAmount0 =>
          match fitLoop (p.quoteFn p.token1IsCurrency0) p.bufferBps limit0
              .scaledAmount1FellToZero .derivedToken0ExceedsBalance 5 s1.1 derivedAmount0
              false with
          | .error e => .error e
          | .ok out =>
            let warnings := if out.2.2 then s1.2 ++ [.scaledAmount1ToFit] else s1.2
            .ok ⟨out.2.1, out.1, true, out.2.2, warnings⟩

theorem fitLoop_ok_le (q : Int → Except KeeperError Int) (b l : Int) (z er : KeeperError) :
    ∀ (fuel : Nat) (input d : Int) (s : Bool) (out : Int × Int × Bool),
      fitLoop q b l z er fuel input d s = .ok out → out.2.1 ≤ l := by
  intro fuel
  induction fuel with
  | zero =>
    intro input d s out h
    simp only [fitLoop] at h
    split at h
    · injection h with h'
      subst h'
      assumption
    · exact absurd h (by simp)
  | succ fuel ih =>
    intro input d s out h
    simp only [fitLoop] at h
    split at h
    · injection h with h'
      subst h'
      assumption
    · cases hsc : scaleInputToFit input d l with
      | error e =>
        rw [hsc] at h
        exact absurd h (by simp [Except.bind])
      | ok input' =>
        rw [hsc] at h
        simp only [Except.bind] at h
        split at h
        · exact absurd h (by simp)
        · cases hq : q input' with
          | error e =>
            rw [hq] at h
            exact absurd h (by simp [Except.bind])
          | ok quoted =>
            rw [hq] at h
            simp only [Except.bind] at h
            cases hb : applyBpsBuffer quoted b with
            | error e =>
              rw [hb] at h
              exact absurd h (by simp [Except.bind])
            | ok d' =>
              rw [hb] at h
              simp only [Except.bind] at h
              exact ih input' d' true out h

/-- Example parameters for the rescale loop: one thousand units of token1
available, an amount0 input of two thousand, and a quote returning twice the
input, as in the specification example. -/
def exampleScaleParams : AmountSelectionParams :=
  ⟨10000, 1000, some 2000, none, false, true, true, false, 0, 10000,
    fun _ x => .ok (2 * x)⟩

/-- C5: with exactly one side specified and a total quote, every successful
selectAmounts result keeps the derived amount within the derived side's spend
limit, and a scaled result carries the corresponding rescale warning; the
rescale loop errors once its five iterations are exhausted with the derived
amount still over the limit, and errors when the rescaled input falls to
zero; the two-times quote example scales and fits under one thousand. -/
theorem selectAmounts_rescale_spec :
    (∀ (p : AmountSelectionParams) (a0 : Int) (r : AmountSelectionResult),
        p.useFullBalances = false → p.amount0Input = some a0 → p.amount1Input = none →
        selectAmounts p = .ok r →
          r.amount1 ≤ applyMaxSpend p.balance1 p.maxSpendBps ∧
          (r.scaled = true → Warning.scaledAmount0ToFit ∈ r.warnings)) ∧
    (∀ (p : AmountSelectionParams) (a1 : Int) (r : AmountSelectionResult),
        p.useFullBalances = false → p.amount0Input = none → p.amount1Input = some a1 →
        selectAmounts p = .ok r →
          r.amount0 ≤ applyMaxSpend p.balance0 p.maxSpendBps ∧
          (r.scaled = true → Warning.scaledAmount1ToFit ∈ r.warnings)) ∧
    (∀ (q : Int → Except KeeperError Int) (b l input d : Int) (s : Bool)
        (z er : KeeperError), l < d →
        fitLoop q b l z er 0 input d s = .error er) ∧
    (∀ (q : Int → Except KeeperError Int) (b l input d i' : Int) (s : Bool)
        (z er : KeeperError) (fuel : Nat), l < d →
        scaleInputToFit input d l = .ok i' → i' ≤ 0 →
        fitLoop q b l z er (fuel + 1) input d s = .error z) ∧
    selectAmounts exampleScaleParams = .ok ⟨497, 994, true, true, [.scaledAmount0ToFit]⟩ := by
  refine ⟨?_, ?_, ?_, ?_, by decide⟩
  · intro p a0 r huse h0 h1 hok
    simp only [selectAmounts, huse, h0, h1, Bool.false_eq_true, if_false, ite_false] at hok
    split at hok
    · exact absurd hok (by simp)
    · split at hok
      · rename_i e heq
        split at hok
        · exact absurd hok (by simp)
        · injection hok with h'
          subst h'
          refine ⟨le_refl _, ?_⟩
          intro hf
          exact absurd hf (by simp)
      · rename_i d1 heq
        split at hok
        · exact absurd hok (by simp)
        · rename_i out hfit
          injection hok with h'
          subst h'
          refine ⟨fitLoop_ok_le _ _ _ _ _ _ _ _ _ _ hfit, ?_⟩
          intro hs
          dsimp only at hs ⊢
          rw [if_pos hs]
          simp
  · intro p a1 r huse h0 h1 hok
    simp only [selectAmounts, huse, h0, h1, Bool.false_eq_true, if_false, ite_false] at hok
    split at hok
    · exact absurd hok (by simp)
    · split at hok
      · rename_i e heq
        split at hok
        · exact absurd hok (by simp)
        · injection hok with h'
          subst h'
          refine ⟨le_refl _, ?_⟩
          intro hf
          exact absurd hf (by simp)
      · rename_i d0 heq
        split at hok
        · exact absurd hok (by simp)
        · rename_i out hfit
          injection hok with h'
          subst h'
          refine ⟨fitLoop_ok_le _ _ _ _ _ _ _ _ _ _ hfit, ?_⟩
          intro hs
          dsimp only at hs ⊢
          rw [if_pos hs]
          simp
  · intro q b l input d s z er hld
    simp only [fitLoop]
    rw [if_neg (by omega)]
  · intro q b l input d i' s z er fuel hld hsc hi
    simp only [fitLoop]
    rw [if_neg (by omega), hsc]
    simp only [Except.bind]
    rw [if_pos (by omega)]

/-- Witness for C5: the quantified bound applied at the concrete two-times
quote example, together with the evaluated result. -/
theorem selectAmounts_rescale_spec_witness :
    selectAmounts exampleScaleParams = .ok ⟨497, 994, true, true, [.scaledAmount0ToFit]⟩ ∧
    (994 : Int) ≤ applyMaxSpend 1000 10000 ∧
    Warning.scaledAmount0ToFit ∈ [Warning.scaledAmount0ToFit] := by
  have h : selectAmounts exampleScaleParams =
      .ok ⟨497, 994, true, true, [.scaledAmount0ToFit]⟩ := by decide
  have h2 := selectAmounts_rescale_spec.1 exampleScaleParams 2000 _ (by decide) (by decide)
    (by decide) h
  exact ⟨h, h2.1, h2.2 rfl⟩

theorem applyMaxSpend_nonneg (balance bps : Int) (hb : 0 ≤ balance) :
    0 ≤ applyMaxSpend balance bps := by
  unfold applyMaxSpend
  split
  · exact hb
  · split
    · exact le_refl 0
    · rename_i hbig hpos
      exact Int.tdiv_nonneg (mul_nonneg hb (by omega)) (by omega)

/-- Example parameters for the quote failure fallback with one thousand units
of token1 available. -/
def exampleQuoteFailParams : AmountSelectionParams :=
  ⟨10000, 1000, some 2000, none, false, true, true, false, 0, 10000,
    fun _ _ => .error .quoteUnavailable⟩

/-- Example parameters for the quote failure fallback with no token1
balance. -/
def exampleQuoteFailZeroParams : AmountSelectionParams :=
  ⟨10000, 0, some 2000, none, false, true, true, false, 0, 10000,
    fun _ _ => .error .quoteUnavailable⟩

/-- C6: with exactly one side specified and a failing quote call, selectAmounts
fails exactly when the derived side's spend limit is zero; otherwise it
returns the full derived-side limit on the derived side with the quote
failure warning appended, so the fallback is neither silent nor zero. -/
theorem selectAmounts_quoteFailure_fallback :
    (∀ (p : AmountSelectionParams) (a0 : Int) (e : KeeperError),
        p.useFullBalances = false → p.amount0Input = some a0 → p.amount1Input = none →
        p.hasQuoter = true → 0 ≤ p.balance1 →
        p.quoteFn p.token0IsCurrency0
          (clampAmount a0 (applyMaxSpend p.balance0 p.maxSpendBps) .clampedToken0 []).1 =
          .error e →
        (((selectAmounts p).isOk = false) ↔ applyMaxSpend p.balance1 p.maxSpendBps = 0) ∧
        (0 < applyMaxSpend p.balance1 p.maxSpendBps →
          selectAmounts p = .ok
            ⟨(clampAmount a0 (applyMaxSpend p.balance0 p.maxSpendBps) .clampedToken0 []).1,
              applyMaxSpend p.balance1 p.maxSpendBps, false, false,
              (clampAmount a0 (applyMaxSpend p.balance0 p.maxSpendBps) .clampedToken0 []).2 ++
                [.quoteFailedUsingFullToken1 e]⟩)) ∧
    (∀ (p : AmountSelectionParams) (a1 : Int) (e : KeeperError),
        p.useFullBalances = false → p.amount0Input = none → p.amount1Input = some a1 →
        p.hasQuoter = true → 0 ≤ p.balance0 →
        p.quoteFn p.token1IsCurrency0
          (clampAmount a1 (applyMaxSpend p.balance1 p.maxSpendBps) .clampedToken1 []).1 =
          .error e →
        (((selectAmounts p).isOk = false) ↔ applyMaxSpend p.balance0 p.maxSpendBps = 0) ∧
        (0 < applyMaxSpend p.balance0 p.maxSpendBps →
          selectAmounts p = .ok
            ⟨applyMaxSpend p.balance0 p.maxSpendBps,
              (clampAmount a1 (applyMaxSpend p.balance1 p.maxSpendBps) .clampedToken1 []).1,
              false, false,
              (clampAmount a1 (applyMaxSpend p.balance1 p.maxSpendBps) .clampedToken1 []).2 ++
                [.quoteFailedUsingFullToken0 e]⟩)) := by
  constructor
  · intro p a0 e huse h0 h1 hq hbal hquote
    have hEval : selectAmounts p =
        (if applyMaxSpend p.balance1 p.maxSpendBps ≤ 0 then
          (.error .noFallbackToken1Balance : Except KeeperError AmountSelectionResult)
        else .ok
          ⟨(clampAmount a0 (applyMaxSpend p.balance0 p.maxSpendBps) .clampedToken0 []).1,
            applyMaxSpend p.balance1 p.maxSpendBps, false, false,
            (clampAmount a0 (applyMaxSpend p.balance0 p.maxSpendBps) .clampedToken0 []).2 ++
              [.quoteFailedUsingFullToken1 e]⟩) := by
      simp only [selectAmounts, huse, h0, h1, hq, Bool.false_eq_true, if_false, ite_false,
        not_true, hquote, Except.bind]
    have hlim : 0 ≤ applyMaxSpend p.balance1 p.maxSpendBps := applyMaxSpend_nonneg _ _ hbal
    by_cases hl : applyMaxSpend p.balance1 p.maxSpendBps ≤ 0
    · rw [hEval, if_pos hl]
      refine ⟨?_, ?_⟩
      · simp only [Except.isOk, Except.toBool]
        constructor
        · intro _
          omega
        · intro _
          trivial
      · intro hpos
        exact absurd hpos (by omega)
    · rw [hEval, if_neg hl]
      refine ⟨?_, fun _ => rfl⟩
      simp only [Except.isOk, Except.toBool]
      constructor
      · intro hfalse
        exact absurd hfalse (by simp)
      · intro hzero
        exact absurd hzero (by omega)
  · intro p a1 e huse h0 h1 hq hbal hquote
    have hEval : selectAmounts p =
        (if applyMaxSpend p.balance0 p.maxSpendBps ≤ 0 then
          (.error .noFallbackToken0Balance : Except KeeperError AmountSelectionResult)
        else .ok
          ⟨applyMaxSpend p.balance0 p.maxSpendBps,
            (clampAmount a1 (applyMaxSpend p.balance1 p.maxSpendBps) .clampedToken1 []).1,
            false, false,
            (clampAmount a1 (applyMaxSpend p.balance1 p.maxSpendBps) .clampedToken1 []).2 ++
              [.quoteFailedUsingFullToken0 e]⟩) := by
      simp only [selectAmounts, huse, h0, h1, hq, Bool.false_eq_true, if_false, ite_false,
        not_true, hquote, Except.bind]
    have hlim : 0 ≤ applyMaxSpend p.balance0 p.maxSpendBps := applyMaxSpend_nonneg _ _ hbal
    by_cases hl : applyMaxSpend p.balance0 p.maxSpendBps ≤ 0
    · rw [hEval, if_pos hl]
      refine ⟨?_, ?_⟩
      · simp only [Except.isOk, Except.toBool]
        constructor
        · intro _
          omega
        · intro _
          trivial
      · intro hpos
        exact absurd hpos (by omega)
    · rw [hEval, if_neg hl]
      refine ⟨?_, fun _ => rfl⟩
      simp only [Except.isOk, Except.toBool]
      constructor
      · intro hfalse
        exact absurd hfalse (by simp)
      · intro hzero
        exact absurd hzero (by omega)

/-- Witness for C6: the fallback theorem applied at a failing quote with one
thousand units of token1 available, and at the same call with no token1
balance. -/
theorem selectAmounts_quoteFailure_fallback_witness :
    selectAmounts exampleQuoteFailParams =
      .ok ⟨2000, 1000, false, false, [.quoteFailedUsingFullToken1 .quoteUnavailable]⟩ ∧
    (selectAmounts exampleQuoteFailZeroParams).isOk = false := by
  have h1 := (selectAmounts_quoteFailure_fallback.1 exampleQuoteFailParams 2000
    .quoteUnavailable (by decide) (by decide) (by decide) (by decide) (by decide)
    (by decide)).2 (by decide)
  have h2 := (selectAmounts_quoteFailure_fallback.1 exampleQuoteFailZeroParams 2000
    .quoteUnavailable (by decide) (by decide) (by decide) (by decide) (by decide)
    (by decide)).1.mpr (by decide)
  exact ⟨h1, h2⟩

/-- Byte strings are lists of byte values; the hex payloads of the planner
are modelled at this byte level. -/
abbrev Bytes := List Nat

/-- Big-endian base-256 digits of n, k bytes wide. -/
def encodeWordAux : Nat → Nat → Bytes
  | 0, _ => []
  | k + 1, n => encodeWordAux k (n / 256) ++ [n % 256]

/-- One 32 byte ABI word holding n. -/
def encodeWord (n : Nat) : Bytes := encodeWordAux 32 n

/-- Big-endian interpretation of a byte string. -/
def decodeBytesToNat (bs : Bytes) : Nat := bs.foldl (fun acc b => acc * 256 + b) 0

/-- Right-pad a byte string with zeros to a multiple of 32 bytes. -/
def padRight32 (bs : Bytes) : Bytes :=
  bs ++ List.replicate ((32 - bs.length % 32) % 32) 0

/-- ABI tail encoding of a dynamic bytes value: its length word followed by
the padded data. -/
def abiBytes (data : Bytes) : Bytes := encodeWord data.length ++ padRight32 data

/-- Head offsets of the elements of a dynamic bytes array, relative to the
start of the element area, accumulated over the element tails. -/
def cumOffsets (base : Nat) : List Bytes → List Nat
  | [] => []
  | t :: ts => base :: cumOffsets (base + t.length) ts

/-- ABI encoding of a bytes array: the count, the element offsets, then each
element as a dynamic bytes tail. -/
def bytesArrayEnc (elems : List Bytes) : Bytes :=
  let tails := elems.map abiBytes
  encodeWord elems.length ++
    (cumOffsets (32 * elems.length) tails).foldr (fun o acc => encodeWord o ++ acc) [] ++
    tails.foldr (fun t acc => t ++ acc) []

/-- ABI encoding of the top-level pair of the unlock payload, the
actions bytes and the params bytes array, as produced by
encodeAbiParameters. -/
def encodeActionsParams (actions : Bytes) (params : List Bytes) : Bytes :=
  encodeWord 64 ++ encodeWord (64 + (abiBytes actions).length) ++
    abiBytes actions ++ bytesArrayEnc params

/-- Read the 32 byte word at a byte position. -/
def readWord (bs : Bytes) (pos : Nat) : Nat := decodeBytesToNat ((bs.drop pos).take 32)

/-- Read a slice of the given length at a byte position. -/
def readSlice (bs : Bytes) (pos len : Nat) : Bytes := (bs.drop pos).take len

/-- Read a dynamic bytes value laid out at a byte position: its length word
followed by that many bytes. -/
def readBytesAt (bs : Bytes) (pos : Nat) : Bytes := readSlice bs (pos + 32) (readWord bs pos)

/-- ABI decoding of the top-level unlock payload: follow the two head
offsets, read the actions bytes, the element count, and each element through
its offset. -/
def decodeActionsParams (bs : Bytes) : Bytes × List Bytes :=
  let offP := readWord bs 32
  let actions := readBytesAt bs (readWord bs 0)
  let n := readWord bs offP
  let params := (List.range n).map fun i =>
    readBytesAt bs (offP + 32 + readWord bs (offP + 32 + 32 * i))
  (actions, params)

theorem length_encodeWordAux (k n : Nat) : (encodeWordAux k n).length = k := by
  induction k generalizing n with
  | zero => rfl
  | succ k ih => simp [encodeWordAux, ih]

theorem length_encodeWord (n : Nat) : (encodeWord n).length = 32 :=
  length_encodeWordAux 32 n

theorem decode_encodeWordAux (k : Nat) : ∀ n, decodeBytesToNat (encodeWordAux k n) = n % 256 ^ k := by
  induction k with
  | zero =>
    intro n
    simp [encodeWordAux, decodeBytesToNat, Nat.mod_one]
  | succ k ih =>
    intro n
    have hfold : decodeBytesToNat (encodeWordAux k (n / 256) ++ [n % 256]) =
        decodeBytesToNat (encodeWordAux k (n / 256)) * 256 + n % 256 := by
      simp [decodeBytesToNat, List.foldl_append]
    have hmm : n % 256 ^ (k + 1) = n % 256 + 256 * (n / 256 % 256 ^ k) := by
      rw [pow_succ, mul_comm (256 ^ k) 256]
      exact Nat.mod_mul
    simp only [encodeWordAux, hfold, ih]
    omega

theorem decode_encodeWord (n : Nat) (h : n < 2 ^ 256) : decodeBytesToNat (encodeWord n) = n := by
  have h2 : (256 : Nat) ^ 32 = 2 ^ 256 := by norm_num
  rw [encodeWord, decode_encodeWordAux, h2, Nat.mod_eq_of_lt h]

theorem drop_append_add (xs ys : Bytes) (k : Nat) :
    (xs ++ ys).drop (xs.length + k) = ys.drop k := by
  induction xs with
  | nil => simp
  | cons a xs ih => simpa [Nat.succ_add] using ih

theorem readWord_at (xs ys : Bytes) (pos k : Nat) (h : xs.length + k = pos) :
    readWord (xs ++ ys) pos = readWord ys k := by
  subst h
  unfold readWord
  rw [drop_append_add]

theorem readBytesAt_at (xs ys : Bytes) (pos k : Nat) (h : xs.length + k = pos) :
    readBytesAt (xs ++ ys) pos = readBytesAt ys k := by
  subst h
  unfold readBytesAt readSlice
  rw [readWord_at xs ys _ k rfl, Nat.add_assoc, drop_append_add]

theorem drop_at (xs ys : Bytes) (pos : Nat) (h : xs.length = pos) :
    (xs ++ ys).drop pos = ys := by
  subst h
  simpa using drop_append_add xs ys 0

theorem readWord_word (n : Nat) (rest : Bytes) (h : n < 2 ^ 256) :
    readWord (encodeWord n ++ rest) 0 = n := by
  unfold readWord
  rw [List.drop_zero, ← length_encodeWord n, List.take_left]
  exact decode_encodeWord n h

theorem take_of_append_left (xs ys : Bytes) (k : Nat) (h : xs.length = k) :
    (xs ++ ys).take k = xs := by
  subst h
  exact List.take_left xs ys

theorem readBytesAt_abiBytes (data rest : Bytes) (h : data.length < 2 ^ 256) :
    readBytesAt (abiBytes data ++ rest) 0 = data := by
  unfold readBytesAt readSlice abiBytes padRight32
  rw [List.append_assoc, List.append_assoc]
  rw [readWord_word data.length _ h, Nat.zero_add]
  rw [drop_at (encodeWord data.length) _ 32 (length_encodeWord _)]
  exact take_of_append_left data _ _ rfl

theorem readBytesAt_abiBytes_end (data : Bytes) (h : data.length < 2 ^ 256) :
    readBytesAt (abiBytes data) 0 = data := by
  have := readBytesAt_abiBytes data [] h
  rwa [List.append_nil] at this

/-- Padded length of a byte count: rounded up to a multiple of 32. -/
def paddedLen (n : Nat) : Nat := n + (32 - n % 32) % 32

theorem paddedLen_lt (n : Nat) : paddedLen n < n + 32 := by
  unfold paddedLen
  have : (32 - n % 32) % 32 < 32 := Nat.mod_lt _ (by omega)
  omega

theorem length_abiBytes (data : Bytes) : (abiBytes data).length = 32 + paddedLen data.length := by
  simp [abiBytes, padRight32, paddedLen, length_encodeWord]

theorem decodeActionsParams_encode_two (actions p0 p1 : Bytes)
    (ha : actions.length < 2 ^ 64) (h0 : p0.length < 2 ^ 64) (h1 : p1.length < 2 ^ 64) :
    decodeActionsParams (encodeActionsParams actions [p0, p1]) = (actions, [p0, p1]) := by
  set A := abiBytes actions with hA
  set E0 := abiBytes p0 with hE0
  set E1 := abiBytes p1 with hE1
  have hblob : encodeActionsParams actions [p0, p1] =
      encodeWord 64 ++ (encodeWord (64 + A.length) ++ (A ++ (encodeWord 2 ++
        (encodeWord 64 ++ (encodeWord (64 + E0.length) ++ (E0 ++ E1)))))) := by
    simp [encodeActionsParams, bytesArrayEnc, cumOffsets, ← hA, ← hE0, ← hE1,
      List.append_assoc]
  have l1 : (encodeWord 64).length = 32 := length_encodeWord 64
  have l2 : (encodeWord (64 + A.length)).length = 32 := length_encodeWord _
  have l3 : (encodeWord 2).length = 32 := length_encodeWord 2
  have l4 : (encodeWord (64 + E0.length)).length = 32 := length_encodeWord _
  have hlenA : A.length = 32 + paddedLen actions.length := by
    rw [hA]
    exact length_abiBytes actions
  have hlen0 : E0.length = 32 + paddedLen p0.length := by
    rw [hE0]
    exact length_abiBytes p0
  have hpadA := paddedLen_lt actions.length
  have hpad0 := paddedLen_lt p0.length
  have hb0 : readWord (encodeActionsParams actions [p0, p1]) 0 = 64 := by
    rw [hblob]
    exact readWord_word 64 _ (by norm_num)
  have hb32 : readWord (encodeActionsParams actions [p0, p1]) 32 = 64 + A.length := by
    rw [hblob, readWord_at (encodeWord 64) _ 32 0 (by omega)]
    exact readWord_word _ _ (by omega)
  have hact : readBytesAt (encodeActionsParams actions [p0, p1]) 64 = actions := by
    rw [hblob, readBytesAt_at (encodeWord 64) _ 64 32 (by omega),
      readBytesAt_at (encodeWord (64 + A.length)) _ 32 0 (by omega), hA]
    exact readBytesAt_abiBytes actions _ (by omega)
  have hcount : readWord (encodeActionsParams actions [p0, p1]) (64 + A.length) = 2 := by
    rw [hblob, readWord_at (encodeWord 64) _ (64 + A.length) (32 + A.length) (by omega),
      readWord_at (encodeWord (64 + A.length)) _ (32 + A.length) A.length (by omega),
      readWord_at A _ A.length 0 (by omega)]
    exact readWord_word 2 _ (by norm_num)
  have hoff0 : readWord (encodeActionsParams actions [p0, p1]) (64 + A.length + 32 + 32 * 0) =
      64 := by
    rw [hblob,
      readWord_at (encodeWord 64) _ (64 + A.length + 32 + 32 * 0) (64 + A.length) (by omega),
      readWord_at (encodeWord (64 + A.length)) _ (64 + A.length) (32 + A.length) (by omega),
      readWord_at A _ (32 + A.length) 32 (by omega),
      readWord_at (encodeWord 2) _ 32 0 (by omega)]
    exact readWord_word 64 _ (by norm_num)
  have hoff1 : readWord (encodeActionsParams actions [p0, p1]) (64 + A.length + 32 + 32 * 1) =
      64 + E0.length := by
    rw [hblob,
      readWord_at (encodeWord 64) _ (64 + A.length + 32 + 32 * 1) (64 + A.length + 32)
        (by omega),
      readWord_at (encodeWord (64 + A.length)) _ (64 + A.length + 32) (32 + A.length + 32)
        (by omega),
      readWord_at A _ (32 + A.length + 32) 64 (by omega),
      readWord_at (encodeWord 2) _ 64 32 (by omega),
      readWord_at (encodeWord 64) _ 32 0 (by omega)]
    exact readWord_word _ _ (by omega)
  have helem0 : readBytesAt (encodeActionsParams actions [p0, p1]) (64 + A.length + 32 + 64) =
      p0 := by
    rw [hblob,
      readBytesAt_at (encodeWord 64) _ (64 + A.length + 32 + 64) (64 + A.length + 64)
        (by omega),
      readBytesAt_at (encodeWord (64 + A.length)) _ (64 + A.length + 64) (32 + A.length + 64)
        (by omega),
      readBytesAt_at A _ (32 + A.length + 64) 96 (by omega),
      readBytesAt_at (encodeWord 2) _ 96 64 (by omega),
      readBytesAt_at (encodeWord 64) _ 64 32 (by omega),
      readBytesAt_at (encodeWord (64 + E0.length)) _ 32 0 (by omega), hE0]
    exact readBytesAt_abiBytes p0 _ (by omega)
  have helem1 : readBytesAt (encodeActionsParams actions [p0, p1])
      (64 + A.length + 32 + (64 + E0.length)) = p1 := by
    rw [hblob,
      readBytesAt_at (encodeWord 64) _ (64 + A.length + 32 + (64 + E0.length))
        (64 + A.length + 64 + E0.length) (by omega),
      readBytesAt_at (encodeWord (64 + A.length)) _ (64 + A.length + 64 + E0.length)
        (32 + A.length + 64 + E0.length) (by omega),
      readBytesAt_at A _ (32 + A.length + 64 + E0.length) (96 + E0.length) (by omega),
      readBytesAt_at (encodeWord 2) _ (96 + E0.length) (64 + E0.length) (by omega),
      readBytesAt_at (encodeWord 64) _ (64 + E0.length) (32 + E0.length) (by omega),
      readBytesAt_at (encodeWord (64 + E0.length)) _ (32 + E0.length) E0.length (by omega),
      readBytesAt_at E0 _ E0.length 0 (by omega), hE1]
    exact readBytesAt_abiBytes_end p1 (by omega)
  simp only [decodeActionsParams]
  rw [hb0, hact, hb32, hcount]
  have hr2 : List.range 2 = [0, 1] := by decide
  rw [hr2]
  simp only [List.map_cons, List.map_nil]
  rw [hoff0, hoff1, helem0, helem1]

/-- Maximum unsigned 128 bit value, as in uniswap/planner. -/
def MAX_UINT128 : Int := 2 ^ 128 - 1

/-- Word value of a bigint as laid down by the abi encoder: reduced into the
256 bit range, negatives in two's complement. -/
def wordOfInt (i : Int) : Nat := (i % (2 : Int) ^ 256).toNat

/-- One abi word holding a bigint. -/
def wordEnc (i : Int) : Bytes := encodeWord (wordOfInt i)

/-- Action opcode DecreaseLiquidity, from the ACTIONS table of
uniswap/planner. -/
def DECREASE_LIQUIDITY : Nat := 0x01

/-- Action opcode MintPosition. -/
def MINT_POSITION : Nat := 0x02

/-- Action opcode BurnPosition. -/
def BURN_POSITION : Nat := 0x03

/-- Action opcode SettlePair, from the sdk actions table used by the
planner's addSettlePair. -/
def SETTLE_PAIR : Nat := 0x0d

/-- Action opcode TakePair. -/
def TAKE_PAIR : Nat := 0x11

/-- Action opcode CloseCurrency. -/
def CLOSE_CURRENCY : Nat := 0x12

/-- Pool key fields as plain numbers, addresses by their 160 bit values. -/
structure PoolKeyModel where
  currency0 : Nat
  currency1 : Nat
  fee : Nat
  tickSpacing : Int
  hooks : Nat
  deriving DecidableEq

/-- Abi parameter block of a MintPosition action: the pool key tuple inline,
the ticks, liquidity (a uint256 word) and the uint128 maxima, the owner, and
dynamic hook data at offset 384. -/
def mintParamsEnc (pk : PoolKeyModel)
    (tickLower tickUpper liquidity amount0Max amount1Max : Int)
    (owner : Nat) (hookData : Bytes) : Bytes :=
  encodeWord pk.currency0 ++ encodeWord pk.currency1 ++ encodeWord pk.fee ++
    wordEnc pk.tickSpacing ++ encodeWord pk.hooks ++ wordEnc tickLower ++ wordEnc tickUpper ++
    wordEnc liquidity ++ wordEnc amount0Max ++ wordEnc amount1Max ++ encodeWord owner ++
    encodeWord 384 ++ abiBytes hookData

/-- Abi parameter block of a DecreaseLiquidity action: tokenId, liquidity as
a uint256 word, the uint128 minima, and dynamic hook data behind the five
head slots, at offset 160. -/
def decreaseParamsEnc (tokenId liquidity amount0Min amount1Min : Int)
    (hookData : Bytes) : Bytes :=
  wordEnc tokenId ++ wordEnc liquidity ++ wordEnc amount0Min ++ wordEnc amount1Min ++
    encodeWord 160 ++ abiBytes hookData

/-- Abi parameter block of a BurnPosition action: tokenId, the uint128
minima, and dynamic hook data at offset 128. -/
def burnParamsEnc (tokenId amount0Min amount1Min : Int) (hookData : Bytes) : Bytes :=
  wordEnc tokenId ++ wordEnc amount0Min ++ wordEnc amount1Min ++ encodeWord 128 ++
    abiBytes hookData

/-- Abi parameter block of a TakePair action. -/
def takePairParamsEnc (currency0 currency1 recipient : Nat) : Bytes :=
  encodeWord currency0 ++ encodeWord currency1 ++ encodeWord recipient

/-- Abi parameter block of a SettlePair action. -/
def settlePairParamsEnc (currency0 currency1 : Nat) : Bytes :=
  encodeWord currency0 ++ encodeWord currency1

/-- Abi parameter block of a CloseCurrency action. -/
def closeCurrencyParamsEnc (currency : Nat) : Bytes := encodeWord currency

/-- Modelled from the sdk dependency: the V4PositionPlanner used by
uniswap/planner accumulates ordered action bytes with their parameter blocks,
and finalize packs them as the top-level actions and params pair. -/
structure V4PositionPlanner where
  actions : Bytes
  params : List Bytes
  deriving DecidableEq

/-- A fresh planner. -/
def V4PositionPlanner.empty : V4PositionPlanner := ⟨[], []⟩

/-- Append one action byte with its parameter block. -/
def V4PositionPlanner.addAction (pl : V4PositionPlanner) (opcode : Nat) (p : Bytes) :
    V4PositionPlanner :=
  ⟨pl.actions ++ [opcode], pl.params ++ [p]⟩

/-- The planner's addMint. -/
def V4PositionPlanner.addMint (pl : V4PositionPlanner) (pool : PoolKeyModel)
    (tickLower tickUpper liquidity amount0Max amount1Max : Int) (owner : Nat)
    (hookData : Bytes) : V4PositionPlanner :=
  pl.addAction MINT_POSITION
    (mintParamsEnc pool tickLower tickUpper liquidity amount0Max amount1Max owner hookData)

/-- The planner's addSettlePair. -/
def V4PositionPlanner.addSettlePair (pl : V4PositionPlanner) (currency0 currency1 : Nat) :
    V4PositionPlanner :=
  pl.addAction SETTLE_PAIR (settlePairParamsEnc currency0 currency1)

/-- The planner's addTakePair. -/
def V4PositionPlanner.addTakePair (pl : V4PositionPlanner)
    (currency0 currency1 recipient : Nat) : V4PositionPlanner :=
  pl.addAction TAKE_PAIR (takePairParamsEnc currency0 currency1 recipient)

/-- The planner's finalize: the single encoded actions and params pair. -/
def V4PositionPlanner.finalize (pl : V4PositionPlanner) : Bytes :=
  encodeActionsParams pl.actions pl.params

/-- The buildBootstrapUnlockData function of uniswap/planner: a mint followed
by a settle pair, finalized by the planner. -/
def buildBootstrapUnlockData (pool : PoolKeyModel)
    (tickLower tickUpper liquidity amount0Max amount1Max : Int) (owner : Nat)
    (hookData : Bytes) : Bytes :=
  ((V4PositionPlanner.empty.addMint pool tickLower tickUpper liquidity amount0Max amount1Max
    owner hookData).addSettlePair pool.currency0 pool.currency1).finalize

/-- Inputs of buildBurnPositionUnlockData. -/
structure BurnPositionParams where
  tokenId : Int
  amount0Min : Int
  amount1Min : Int
  hookData : Bytes
  currency0 : Nat
  currency1 : Nat
  recipient : Nat

/-- The buildBurnPositionUnlockData function of uniswap/planner: validates
that the uint128 minima are non-negative and fit, then packs the BurnPosition
and TakePair blocks. -/
def buildBurnPositionUnlockData (p : BurnPositionParams) : Except KeeperError Bytes :=
  if p.amount0Min < 0 ∨ p.amount1Min < 0 then .error .amountMinNegative
  else if MAX_UINT128 < p.amount0Min ∨ MAX_UINT128 < p.amount1Min then
    .error .amountMinExceedsUint128
  else .ok (encodeActionsParams [BURN_POSITION, TAKE_PAIR]
    [burnParamsEnc p.tokenId p.amount0Min p.amount1Min p.hookData,
     takePairParamsEnc p.currency0 p.currency1 p.recipient])

/-- Inputs of buildRebalanceUnlockData. -/
structure RebalanceParams where
  poolKey : PoolKeyModel
  oldTokenId : Int
  oldLiquidity : Int
  amount0Min : Int
  amount1Min : Int
  newTickLower : Int
  newTickUpper : Int
  newLiquidity : Int
  amount0Max : Int
  amount1Max : Int
  owner : Nat
  hookData : Bytes

/-- The buildRebalanceUnlockData function of uniswap/planner: validates the
uint128 minima and maxima (the liquidity fields are encoded as uint256 words
and carry no such check), then packs DecreaseLiquidity, MintPosition and two
CloseCurrency blocks. -/
def buildRebalanceUnlockData (p : RebalanceParams) : Except KeeperError Bytes :=
  if MAX_UINT128 < p.amount0Min ∨ MAX_UINT128 < p.amount1Min then
    .error .amountMinExceedsUint128
  else if MAX_UINT128 < p.amount0Max ∨ MAX_UINT128 < p.amount1Max then
    .error .amountMaxExceedsUint128
  else .ok (encodeActionsParams
    [DECREASE_LIQUIDITY, MINT_POSITION, CLOSE_CURRENCY, CLOSE_CURRENCY]
    [decreaseParamsEnc p.oldTokenId p.oldLiquidity p.amount0Min p.amount1Min p.hookData,
     mintParamsEnc p.poolKey p.newTickLower p.newTickUpper p.newLiquidity p.amount0Max
       p.amount1Max p.owner p.hookData,
     closeCurrencyParamsEnc p.poolKey.currency0,
     closeCurrencyParamsEnc p.poolKey.currency1])

/-- Abi decoding of a BurnPosition parameter block. -/
def decodeBurnBlock (bs : Bytes) : Nat × Nat × Nat × Bytes :=
  (readWord bs 0, readWord bs 32, readWord bs 64, readBytesAt bs (readWord bs 96))

/-- Abi decoding of a TakePair parameter block. -/
def decodeTakeBlock (bs : Bytes) : Nat × Nat × Nat :=
  (readWord bs 0, readWord bs 32, readWord bs 64)

/-- Abi decoding of a SettlePair parameter block. -/
def decodeSettleBlock (bs : Bytes) : Nat × Nat := (readWord bs 0, readWord bs 32)

theorem wordOfInt_lt (i : Int) : wordOfInt i < 2 ^ 256 := by
  unfold wordOfInt
  have h1 := Int.emod_lt_of_pos i (show (0 : Int) < 2 ^ 256 by positivity)
  have h2 := Int.emod_nonneg i (show ((2 : Int) ^ 256) ≠ 0 by positivity)
  omega

theorem wordOfInt_eq (i : Int) (h0 : 0 ≤ i) (h1 : i < 2 ^ 256) : (wordOfInt i : Int) = i := by
  unfold wordOfInt
  rw [Int.emod_eq_of_lt h0 h1, Int.toNat_of_nonneg h0]

theorem length_wordEnc (i : Int) : (wordEnc i).length = 32 := length_encodeWord _

theorem readWord_wordEnc (i : Int) (rest : Bytes) :
    readWord (wordEnc i ++ rest) 0 = wordOfInt i :=
  readWord_word _ _ (wordOfInt_lt i)

theorem readWord_word_end (n : Nat) (h : n < 2 ^ 256) : readWord (encodeWord n) 0 = n := by
  have hx := readWord_word n [] h
  rwa [List.append_nil] at hx

/-- C7: for every in-range input, the Burn and Close instruction list decodes
back to the two ordered action bytes BurnPosition and TakePair with one
parameter block per action byte, and the two blocks decode to exactly the
tokenId, minima and hook data, and the currencies and recipient, supplied at
construction. -/
theorem buildBurnPositionUnlockData_roundtrip (p : BurnPositionParams)
    (ht0 : 0 ≤ p.tokenId) (ht1 : p.tokenId < 2 ^ 256)
    (h00 : 0 ≤ p.amount0Min) (h0b : p.amount0Min ≤ MAX_UINT128)
    (h10 : 0 ≤ p.amount1Min) (h1b : p.amount1Min ≤ MAX_UINT128)
    (hc0 : p.currency0 < 2 ^ 160) (hc1 : p.currency1 < 2 ^ 160)
    (hrc : p.recipient < 2 ^ 160) (hhd : p.hookData.length < 2 ^ 32) :
    ∃ bs, buildBurnPositionUnlockData p = .ok bs ∧
      (decodeActionsParams bs).1 = [BURN_POSITION, TAKE_PAIR] ∧
      BURN_POSITION = 0x03 ∧ TAKE_PAIR = 0x11 ∧
      (decodeActionsParams bs).2.length = (decodeActionsParams bs).1.length ∧
      (decodeActionsParams bs).2 =
        [burnParamsEnc p.tokenId p.amount0Min p.amount1Min p.hookData,
         takePairParamsEnc p.currency0 p.currency1 p.recipient] ∧
      ((decodeBurnBlock (burnParamsEnc p.tokenId p.amount0Min p.amount1Min p.hookData)).1 : Int) =
        p.tokenId ∧
      ((decodeBurnBlock (burnParamsEnc p.tokenId p.amount0Min p.amount1Min p.hookData)).2.1 : Int) =
        p.amount0Min ∧
      ((decodeBurnBlock (burnParamsEnc p.tokenId p.amount0Min p.amount1Min p.hookData)).2.2.1 : Int) =
        p.amount1Min ∧
      (decodeBurnBlock (burnParamsEnc p.tokenId p.amount0Min p.amount1Min p.hookData)).2.2.2 =
        p.hookData ∧
      (decodeTakeBlock (takePairParamsEnc p.currency0 p.currency1 p.recipient)).1 =
        p.currency0 ∧
      (decodeTakeBlock (takePairParamsEnc p.currency0 p.currency1 p.recipient)).2.1 =
        p.currency1 ∧
      (decodeTakeBlock (takePairParamsEnc p.currency0 p.currency1 p.recipient)).2.2 =
        p.recipient := by
  have hM : MAX_UINT128 = 2 ^ 128 - 1 := rfl
  have hpadh := paddedLen_lt p.hookData.length
  have hlenb : (burnParamsEnc p.tokenId p.amount0Min p.amount1Min p.hookData).length < 2 ^ 64 := by
    simp only [burnParamsEnc, wordEnc, List.length_append, length_encodeWord, length_abiBytes]
    omega
  have hlent : (takePairParamsEnc p.currency0 p.currency1 p.recipient).length < 2 ^ 64 := by
    simp only [takePairParamsEnc, List.length_append, length_encodeWord]
    omega
  have hacts : ([BURN_POSITION, TAKE_PAIR] : Bytes).length < 2 ^ 64 := by
    simp [BURN_POSITION, TAKE_PAIR]
  have hdec := decodeActionsParams_encode_two [BURN_POSITION, TAKE_PAIR]
    (burnParamsEnc p.tokenId p.amount0Min p.amount1Min p.hookData)
    (takePairParamsEnc p.currency0 p.currency1 p.recipient) hacts hlenb hlent
  have hbuild : buildBurnPositionUnlockData p = .ok (encodeActionsParams
      [BURN_POSITION, TAKE_PAIR]
      [burnParamsEnc p.tokenId p.amount0Min p.amount1Min p.hookData,
       takePairParamsEnc p.currency0 p.currency1 p.recipient]) := by
    unfold buildBurnPositionUnlockData
    rw [if_neg (by push_neg; exact ⟨h00, h10⟩), if_neg (by push_neg; exact ⟨h0b, h1b⟩)]
  have l1 : (wordEnc p.tokenId).length = 32 := length_wordEnc _
  have l2 : (wordEnc p.amount0Min).length = 32 := length_wordEnc _
  have l3 : (wordEnc p.amount1Min).length = 32 := length_wordEnc _
  have l4 : (encodeWord 128).length = 32 := length_encodeWord _
  have l5 : (encodeWord p.currency0).length = 32 := length_encodeWord _
  have l6 : (encodeWord p.currency1).length = 32 := length_encodeWord _
  have hburn : decodeBurnBlock (burnParamsEnc p.tokenId p.amount0Min p.amount1Min p.hookData) =
      (wordOfInt p.tokenId, wordOfInt p.amount0Min, wordOfInt p.amount1Min, p.hookData) := by
    unfold decodeBurnBlock burnParamsEnc
    simp only [List.append_assoc]
    rw [readWord_wordEnc,
      readWord_at (wordEnc p.tokenId) _ 32 0 (by omega), readWord_wordEnc,
      readWord_at (wordEnc p.tokenId) _ 64 32 (by omega),
      readWord_at (wordEnc p.amount0Min) _ 32 0 (by omega), readWord_wordEnc,
      readWord_at (wordEnc p.tokenId) _ 96 64 (by omega),
      readWord_at (wordEnc p.amount0Min) _ 64 32 (by omega),
      readWord_at (wordEnc p.amount1Min) _ 32 0 (by omega),
      readWord_word 128 _ (by norm_num),
      readBytesAt_at (wordEnc p.tokenId) _ 128 96 (by omega),
      readBytesAt_at (wordEnc p.amount0Min) _ 96 64 (by omega),
      readBytesAt_at (wordEnc p.amount1Min) _ 64 32 (by omega),
      readBytesAt_at (encodeWord 128) _ 32 0 (by omega),
      readBytesAt_abiBytes_end p.hookData (by omega)]
  have htake : decodeTakeBlock (takePairParamsEnc p.currency0 p.currency1 p.recipient) =
      (p.currency0, p.currency1, p.recipient) := by
    unfold decodeTakeBlock takePairParamsEnc
    simp only [List.append_assoc]
    rw [readWord_word p.currency0 _ (by omega),
      readWord_at (encodeWord p.currency0) _ 32 0 (by omega),
      readWord_word p.currency1 _ (by omega),
      readWord_at (encodeWord p.currency0) _ 64 32 (by omega),
      readWord_at (encodeWord p.currency1) _ 32 0 (by omega),
      readWord_word_end p.recipient (by omega)]
  refine ⟨_, hbuild, ?_, rfl, rfl, ?_, ?_, ?_, ?_, ?_, ?_, ?_, ?_, ?_⟩
  · rw [hdec]
  · simp only [hdec, List.length_cons, List.length_nil]
  · rw [hdec]
  · rw [hburn]
    exact wordOfInt_eq _ ht0 ht1
  · rw [hburn]
    exact wordOfInt_eq _ h00 (by omega)
  · rw [hburn]
    exact wordOfInt_eq _ h10 (by omega)
  · rw [hburn]
  · rw [htake]
  · rw [htake]
  · rw [htake]

/-- Witness for C7 at the concrete burn inputs of the repository's planner
test: tokenId 123, minima 5 and 6, two bytes of hook data, currencies 1 and 2
and recipient 3. -/
theorem buildBurnPositionUnlockData_roundtrip_witness :
    ∃ bs, buildBurnPositionUnlockData ⟨123, 5, 6, [0x12, 0x34], 1, 2, 3⟩ = .ok bs ∧
      (decodeActionsParams bs).1 = [0x03, 0x11] ∧
      ((decodeBurnBlock (burnParamsEnc 123 5 6 [0x12, 0x34])).1 : Int) = 123 ∧
      (decodeBurnBlock (burnParamsEnc 123 5 6 [0x12, 0x34])).2.2.2 = [0x12, 0x34] := by
  obtain ⟨bs, hok, hacts, _, _, _, _, hid, _, _, hhd, _, _, _⟩ :=
    buildBurnPositionUnlockData_roundtrip ⟨123, 5, 6, [0x12, 0x34], 1, 2, 3⟩
      (by norm_num) (by norm_num) (by norm_num) (by decide) (by norm_num) (by decide)
      (by norm_num) (by norm_num) (by norm_num) (by norm_num)
  exact ⟨bs, hok, by rw [hacts]; decide, hid, hhd⟩

/-- C8 (amended): the uint128-typed minima and maxima are validated against
the 128 bit bound before any encoding takes place in both builders, failing
with the value-exceeds-uint128 errors; the liquidity fields are encoded as
uint256 words and are not subject to the uint128 check, so the rebalance
builder succeeds whenever the minima and maxima fit, whatever the liquidity
values. -/
theorem uint128_validation_before_encoding :
    (∀ p : RebalanceParams, MAX_UINT128 < p.amount0Min ∨ MAX_UINT128 < p.amount1Min →
      buildRebalanceUnlockData p = .error .amountMinExceedsUint128) ∧
    (∀ p : RebalanceParams, p.amount0Min ≤ MAX_UINT128 → p.amount1Min ≤ MAX_UINT128 →
      MAX_UINT128 < p.amount0Max ∨ MAX_UINT128 < p.amount1Max →
      buildRebalanceUnlockData p = .error .amountMaxExceedsUint128) ∧
    (∀ p : BurnPositionParams, 0 ≤ p.amount0Min → 0 ≤ p.amount1Min →
      MAX_UINT128 < p.amount0Min ∨ MAX_UINT128 < p.amount1Min →
      buildBurnPositionUnlockData p = .error .amountMinExceedsUint128) ∧
    (∀ p : RebalanceParams, p.amount0Min ≤ MAX_UINT128 → p.amount1Min ≤ MAX_UINT128 →
      p.amount0Max ≤ MAX_UINT128 → p.amount1Max ≤ MAX_UINT128 →
      (buildRebalanceUnlockData p).isOk = true) := by
  refine ⟨?_, ?_, ?_, ?_⟩
  · intro p h
    unfold buildRebalanceUnlockData
    rw [if_pos h]
  · intro p h0 h1 h
    unfold buildRebalanceUnlockData
    rw [if_neg (by push_neg; exact ⟨h0, h1⟩), if_pos h]
  · intro p h0 h1 h
    unfold buildBurnPositionUnlockData
    rw [if_neg (by push_neg; exact ⟨h0, h1⟩), if_pos h]
  · intro p h0 h1 h2 h3
    unfold buildRebalanceUnlockData
    rw [if_neg (by push_neg; exact ⟨h0, h1⟩), if_neg (by push_neg; exact ⟨h2, h3⟩)]
    rfl

/-- Rebalance inputs whose liquidity fields exceed the 128 bit range while
every validated field is small. -/
def exampleRebalanceOverflow : RebalanceParams :=
  ⟨⟨1, 2, 3000, 60, 0⟩, 7, 2 ^ 128, 0, 0, -60, 60, 2 ^ 128, 0, 0, 5, []⟩

/-- Counterexample for C8 as frozen: a rebalance whose old and new liquidity
both exceed the uint128 range builds successfully, because the liquidity
fields are encoded as uint256 and never checked against the 128 bit bound. -/
theorem rebalance_liquidity_unchecked_counterexample :
    MAX_UINT128 < exampleRebalanceOverflow.oldLiquidity ∧
    MAX_UINT128 < exampleRebalanceOverflow.newLiquidity ∧
    (buildRebalanceUnlockData exampleRebalanceOverflow).isOk = true := by
  refine ⟨by decide, by decide, by decide⟩

/-- Witness for C8: a too-large minimum and a too-large maximum are rejected
by both builders before encoding, and the over-wide liquidity example is
accepted. -/
theorem uint128_validation_before_encoding_witness :
    buildRebalanceUnlockData ⟨⟨1, 2, 3000, 60, 0⟩, 7, 1, 2 ^ 128, 0, -60, 60, 1, 0, 0, 5, []⟩ =
      .error .amountMinExceedsUint128 ∧
    buildBurnPositionUnlockData ⟨1, 2 ^ 128, 0, [], 1, 2, 3⟩ =
      .error .amountMinExceedsUint128 ∧
    (buildRebalanceUnlockData exampleRebalanceOverflow).isOk = true := by
  refine ⟨uint128_validation_before_encoding.1 _ (by decide),
    uint128_validation_before_encoding.2.2.1 _ (by decide) (by decide) (by decide),
    uint128_validation_before_encoding.2.2.2 exampleRebalanceOverflow (by decide) (by decide)
      (by decide) (by decide)⟩

/-- Example pool key for the bootstrap plan. -/
def examplePoolKey : PoolKeyModel := ⟨1, 2, 3000, 60, 0⟩

/-- Counterexample for C9 as frozen: the assembled Bootstrap instruction list
carries the action bytes MintPosition then SettlePair, not TakePair; its
second opcode is 0x0d, not 0x11, and its second block has no recipient. -/
theorem bootstrap_actions_counterexample :
    (decodeActionsParams (buildBootstrapUnlockData examplePoolKey (-60) 120 1 1 1 3 [])).1 =
      [0x02, 0x0d] ∧
    (decodeActionsParams (buildBootstrapUnlockData examplePoolKey (-60) 120 1 1 1 3 [])).1 ≠
      [0x02, 0x11] := by
  refine ⟨by decide, by decide⟩

/-- C9 (amended): for every input the Bootstrap instruction list decodes to
exactly the two ordered opcodes MintPosition (2) then SettlePair (13), the
mint block first, followed by the settle block holding the currency pair and
no recipient. -/
theorem buildBootstrapUnlockData_plan (pool : PoolKeyModel)
    (tickLower tickUpper liquidity amount0Max amount1Max : Int) (owner : Nat)
    (hookData : Bytes) (hhd : hookData.length < 2 ^ 32)
    (hc0 : pool.currency0 < 2 ^ 160) (hc1 : pool.currency1 < 2 ^ 160) :
    decodeActionsParams (buildBootstrapUnlockData pool tickLower tickUpper liquidity
        amount0Max amount1Max owner hookData) =
      ([MINT_POSITION, SETTLE_PAIR],
       [mintParamsEnc pool tickLower tickUpper liquidity amount0Max amount1Max owner hookData,
        settlePairParamsEnc pool.currency0 pool.currency1]) ∧
    MINT_POSITION = 0x02 ∧ SETTLE_PAIR = 0x0d ∧
    decodeSettleBlock (settlePairParamsEnc pool.currency0 pool.currency1) =
      (pool.currency0, pool.currency1) := by
  have hpadh := paddedLen_lt hookData.length
  have hmlen : (mintParamsEnc pool tickLower tickUpper liquidity amount0Max amount1Max owner
      hookData).length < 2 ^ 64 := by
    simp only [mintParamsEnc, wordEnc, List.length_append, length_encodeWord, length_abiBytes]
    omega
  have hslen : (settlePairParamsEnc pool.currency0 pool.currency1).length < 2 ^ 64 := by
    simp only [settlePairParamsEnc, List.length_append, length_encodeWord]
    omega
  have hacts : ([MINT_POSITION, SETTLE_PAIR] : Bytes).length < 2 ^ 64 := by
    simp [MINT_POSITION, SETTLE_PAIR]
  have hplanner : buildBootstrapUnlockData pool tickLower tickUpper liquidity amount0Max
      amount1Max owner hookData =
      encodeActionsParams [MINT_POSITION, SETTLE_PAIR]
        [mintParamsEnc pool tickLower tickUpper liquidity amount0Max amount1Max owner hookData,
         settlePairParamsEnc pool.currency0 pool.currency1] := rfl
  refine ⟨?_, rfl, rfl, ?_⟩
  · rw [hplanner]
    exact decodeActionsParams_encode_two _ _ _ hacts hmlen hslen
  · have lc0 : (encodeWord pool.currency0).length = 32 := length_encodeWord _
    unfold decodeSettleBlock settlePairParamsEnc
    rw [readWord_word pool.currency0 _ (by omega),
      readWord_at (encodeWord pool.currency0) _ 32 0 (by omega),
      readWord_word_end pool.currency1 (by omega)]

/-- Witness for C9: the amended plan theorem applied at a concrete pool. -/
theorem buildBootstrapUnlockData_plan_witness :
    (decodeActionsParams (buildBootstrapUnlockData examplePoolKey (-60) 120 1 1 1 3 [])).1 =
      [0x02, 0x0d] ∧
    decodeSettleBlock (settlePairParamsEnc examplePoolKey.currency0 examplePoolKey.currency1) =
      (1, 2) := by
  have h := buildBootstrapUnlockData_plan examplePoolKey (-60) 120 1 1 1 3 [] (by decide)
    (by decide) (by decide)
  refine ⟨?_, h.2.2.2⟩
  rw [h.1]
  decide

end RangeGuard
